import Mathlib

/-!
Verification of the vibelang-rs compiler core against its specification.

The definitions below are shallow embeddings of the Rust sources:
  - `src/compiler/parser.rs`   (lexer, recursive-descent parser, recovery)
  - `src/compiler/codegen.rs`  (type/meaning resolution, code generation,
                                synthesized decoder functions)
  - `src/runtime/types.rs`     (the tri-variant runtime value)

Rust machine floats (`f64`) are modelled as rationals; Rust's Unicode
character classification (`char::is_alphanumeric`, `to_lowercase`) is
modelled by its ASCII counterpart, which agrees on all inputs used here.
-/

namespace Vibe

/-- Rust `str::contains` on character lists: `pat` occurs as a contiguous
substring of `hay`. -/
def listContains (hay pat : List Char) : Bool :=
  match hay with
  | [] => pat.isEmpty
  | _ :: t => pat.isPrefixOf hay || listContains t pat

/-- Rust `str::contains`. -/
def strContains (s pat : String) : Bool :=
  listContains s.toList pat.toList

/-- Numeric value of a list of ASCII digits, most significant first. -/
def digitsToNat (ds : List Char) : Nat :=
  ds.foldl (fun acc c => acc * 10 + (c.toNat - 48)) 0

/-- Rust `str::parse::<i32>`: optional sign, one or more ASCII digits,
value within the i32 range; anything else fails. -/
def parseI32 (s : String) : Option Int :=
  let p : Int × List Char :=
    match s.toList with
    | '+' :: r => (1, r)
    | '-' :: r => (-1, r)
    | r => (1, r)
  if p.2 ≠ [] ∧ p.2.all Char.isDigit then
    let v : Int := p.1 * (digitsToNat p.2 : Int)
    if -(2 ^ 31) ≤ v ∧ v ≤ 2 ^ 31 - 1 then some v else none
  else none

/-- Decimal fragment of Rust `str::parse::<f64>`: optional sign, digits with
at most one decimal point (covering the forms the generated direct-parse
path is claimed to short-circuit on). Exponent, infinity and NaN forms are
not modelled; the value is exact as a rational. -/
def parseDecimal (s : String) : Option ℚ :=
  let p : ℚ × List Char :=
    match s.toList with
    | '+' :: r => (1, r)
    | '-' :: r => (-1, r)
    | r => (1, r)
  let intPart := p.2.takeWhile Char.isDigit
  let rest := p.2.dropWhile Char.isDigit
  match rest with
  | [] => if intPart ≠ [] then some (p.1 * (digitsToNat intPart : ℚ)) else none
  | '.' :: frac =>
    if frac.all Char.isDigit ∧ (intPart ≠ [] ∨ frac ≠ []) then
      some (p.1 * ((digitsToNat intPart : ℚ) +
        (digitsToNat frac : ℚ) / ((10 : ℚ) ^ frac.length)))
    else none
  | _ => none

/-- The neutral tri-variant runtime value (`VibeValue` in
`src/runtime/types.rs`, also re-emitted into every generated program).
The `f64` payload of `Number` is modelled as a rational. -/
inductive VibeValue where
  | Null : VibeValue
  | Boolean : Bool → VibeValue
  | Number : ℚ → VibeValue
  | String : String → VibeValue
deriving DecidableEq

/-- Truncation of a rational toward zero. -/
def ratTrunc (q : ℚ) : Int :=
  if 0 ≤ q then ⌊q⌋ else ⌈q⌉

/-- Rust `f64 as i32`: truncate toward zero, saturating at the i32 bounds.
(The NaN-to-zero case of the Rust cast cannot arise for a rational.) -/
def f64AsI32 (q : ℚ) : Int :=
  max (-(2 ^ 31)) (min (2 ^ 31 - 1) (ratTrunc q))

/-- The `return match prompt_result` conversion emitted by
`generate_type_conversion` for resolved return type `"i32"`
(codegen.rs lines 781-798): `Number(n) => n as i32`,
`String(s) => s.parse::<i32>().unwrap_or(0)`,
`Boolean(b) => if b { 1 } else { 0 }`, `_ => 0`. -/
def generatedI32Conversion : VibeValue → Int
  | .Number n => f64AsI32 n
  | .String s => (parseI32 s).getD 0
  | .Boolean b => if b then 1 else 0
  | .Null => 0

/-- One character of `normalize_meaning_to_function_name`: lower-case, then
keep alphanumerics and replace everything else by an underscore. -/
def normChar (c : Char) : Char :=
  let l := c.toLower
  if l.isAlphanum then l else '_'

/-- Rust `str::split('_')` on a character list: separators delimit possibly
empty fragments, so the result is always non-empty. -/
def splitUnderscore (cs : List Char) : List (List Char) :=
  match cs with
  | [] => [[]]
  | c :: t =>
    let r := splitUnderscore t
    if c = '_' then [] :: r
    else
      match r with
      | [] => [[c]]
      | w :: ws => (c :: w) :: ws

/-- The stop-word filter of `normalize_meaning_to_function_name`
(codegen.rs lines 56-58): keep a fragment iff it is non-empty and is not
one of `a`, `an`, `the`, `of`, `in`. -/
def keepWord (w : List Char) : Bool :=
  !w.isEmpty && w ≠ ['a'] && w ≠ ['a', 'n'] && w ≠ ['t', 'h', 'e'] &&
    w ≠ ['o', 'f'] && w ≠ ['i', 'n']

/-- Rust `Vec::join("_")` on the kept fragments. -/
def joinUnderscore : List (List Char) → List Char
  | [] => []
  | [w] => w
  | w :: ws => w ++ '_' :: joinUnderscore ws

/-- `normalize_meaning_to_function_name` (codegen.rs lines 49-61):
lower-case, map non-alphanumerics to `'_'`, split on `'_'`, drop empty and
stop-word fragments, join with `'_'`. -/
def normalize_meaning_to_function_name (meaning : String) : String :=
  String.mk (joinUnderscore
    ((splitUnderscore (meaning.toList.map normChar)).filter keepWord))

/-- Rust `str::trim`: remove leading and trailing whitespace. -/
def rustTrim (s : String) : String :=
  String.mk
    (((s.toList.dropWhile Char.isWhitespace).reverse.dropWhile
      Char.isWhitespace).reverse)

/-- Rust `str::to_lowercase` (ASCII fragment). -/
def rustToLower (s : String) : String :=
  String.mk (s.toList.map Char.toLower)

/-- Rust `str::split_whitespace` on a character list: maximal runs of
non-whitespace characters, with no empty fragments. -/
def splitWs : List Char → List (List Char)
  | [] => []
  | c :: t =>
    if c.isWhitespace then splitWs t
    else
      ((c :: t).takeWhile (fun x => !x.isWhitespace)) ::
        splitWs ((c :: t).dropWhile (fun x => !x.isWhitespace))
termination_by cs => cs.length
decreasing_by
  · simp
  · simp only [List.dropWhile_cons]
    split
    · have := List.IsSuffix.length_le
        (List.dropWhile_suffix (l := t) (fun x => !x.isWhitespace))
      simp only [List.length_cons]
      omega
    · simp_all

/-- Rust `str::split_whitespace`. -/
def splitWhitespace (s : String) : List String :=
  (splitWs s.toList).map String.mk

/-- `extract_generic_number` as emitted by
`generate_generic_extraction_functions` (codegen.rs lines 620-624): the first
whitespace-delimited token that parses as an i32, else 0. -/
def extract_generic_number (text : String) : Int :=
  ((splitWhitespace text).findSome? parseI32).getD 0

/-- `extract_generic_float` (codegen.rs lines 627-631): the first token that
parses as an f64, else 0.0. -/
def extract_generic_float (text : String) : ℚ :=
  ((splitWhitespace text).findSome? parseDecimal).getD 0

/-- `extract_generic_boolean` (codegen.rs lines 634-640). -/
def extract_generic_boolean (text : String) : Bool :=
  let lower := rustToLower text
  strContains lower "true" || strContains lower "yes" ||
    strContains lower "positive"

/-- The family of synthesized meaning-specific extraction functions and the
per-primitive sets of meanings for which `generate_dynamic_semantic_parser`
emits a dedicated match arm (one entry of `semantic_meanings` per meaning,
filtered by resolved primitive). The dispatcher theorems below hold for every
such family, which is exactly what makes a successful direct parse
independent of the synthesized extractors. -/
structure SynthesizedExtractors where
  intExtract : String → String → Int
  floatExtract : String → String → ℚ
  boolExtract : String → String → Bool
  strExtract : String → String → String
  intMeanings : List String
  floatMeanings : List String
  boolMeanings : List String
  strMeanings : List String

/-- `parse_integer_semantic` as emitted by `generate_integer_semantic_parser`
(codegen.rs lines 152-189): try `content.trim().parse::<i32>()` first; on
failure dispatch on the meaning through the synthesized match arms, falling
back to `extract_generic_number`. -/
def parse_integer_semantic (E : SynthesizedExtractors) (content : String)
    (meaning : Option String) : VibeValue :=
  match parseI32 (rustTrim content) with
  | some v => .Number (v : ℚ)
  | none =>
    let extracted : Int :=
      match meaning with
      | some m =>
        if m ∈ E.intMeanings then E.intExtract m content
        else extract_generic_number content
      | none => extract_generic_number content
    .Number (extracted : ℚ)

/-- `parse_float_semantic` (codegen.rs lines 191-223). -/
def parse_float_semantic (E : SynthesizedExtractors) (content : String)
    (meaning : Option String) : VibeValue :=
  match parseDecimal (rustTrim content) with
  | some v => .Number v
  | none =>
    let extracted : ℚ :=
      match meaning with
      | some m =>
        if m ∈ E.floatMeanings then E.floatExtract m content
        else extract_generic_float content
      | none => extract_generic_float content
    .Number extracted

/-- `parse_boolean_semantic` (codegen.rs lines 225-270): direct containment
tests for `true`/`yes` then `false`/`no` on the lower-cased reply, then the
synthesized meaning dispatch, then the generic boolean extractor. -/
def parse_boolean_semantic (E : SynthesizedExtractors) (content : String)
    (meaning : Option String) : VibeValue :=
  let lower := rustToLower content
  if strContains lower "true" || strContains lower "yes" then .Boolean true
  else if strContains lower "false" || strContains lower "no" then
    .Boolean false
  else
    .Boolean
      (match meaning with
      | some m =>
        if m ∈ E.boolMeanings then E.boolExtract m content
        else extract_generic_boolean content
      | none => extract_generic_boolean content)

/-- `parse_string_semantic` (codegen.rs lines 272-297). -/
def parse_string_semantic (E : SynthesizedExtractors) (content : String)
    (meaning : Option String) : VibeValue :=
  .String
    (match meaning with
    | some m =>
      if m ∈ E.strMeanings then E.strExtract m content
      else rustTrim content
    | none => rustTrim content)

/-- `parse_semantic_response` as emitted by
`generate_dynamic_semantic_parser` (codegen.rs lines 113-150): dispatch on
the resolved primitive return type. -/
def parse_semantic_response (E : SynthesizedExtractors) (content : String)
    (meaning : Option String) (return_type : String) : VibeValue :=
  match return_type with
  | "i32" => parse_integer_semantic E content meaning
  | "f64" => parse_float_semantic E content meaning
  | "bool" => parse_boolean_semantic E content meaning
  | _ => parse_string_semantic E content meaning

/-! ## The abstract syntax tree (`src/utils/ast.rs`) -/

/-- `AstNodeType` from `src/utils/ast.rs`. -/
inductive AstNodeType where
  | Program | FunctionDecl | FunctionBody | TypeDecl | VarDecl | ClassDecl
  | ClassBody | MemberVar | Import
  | BasicType | MeaningType
  | ParamList | Parameter
  | Block | ExprStmt | ReturnStmt | PromptBlock
  | CallExpr | Identifier
  | StringLiteral | IntLiteral | FloatLiteral | BoolLiteral
deriving DecidableEq, Repr

/-- `PropertyValue` from `src/utils/ast.rs`; the `f64` payload is a rational. -/
inductive PropValue where
  | str : String → PropValue
  | int : Int → PropValue
  | float : ℚ → PropValue
  | bool : Bool → PropValue
deriving DecidableEq, Repr

/-- `AstNode`: a node kind, a property bag and exclusively-owned children.
The `HashMap` property bag is modelled as an association list whose most
recent insertion is at the head (so lookup of the first match gives the
HashMap's overwrite semantics). Source position and the (unused) parent
pointer are omitted: no modelled operation reads them. -/
inductive AstNode where
  | mk : AstNodeType → List (String × PropValue) → List AstNode → AstNode
deriving Repr

/-- Node kind accessor. -/
def AstNode.node_type : AstNode → AstNodeType
  | .mk t _ _ => t

/-- Property-bag accessor. -/
def AstNode.props : AstNode → List (String × PropValue)
  | .mk _ p _ => p

/-- Children accessor. -/
def AstNode.children : AstNode → List AstNode
  | .mk _ _ c => c

/-- Typed lookup in a property bag: `get_string` semantics (absent or
wrongly-typed keys yield `none`). -/
def getStr (props : List (String × PropValue)) (key : String) : Option String :=
  match props.lookup key with
  | some (.str s) => some s
  | _ => none

/-- `AstNode::get_string`. -/
def AstNode.get_string (n : AstNode) (key : String) : Option String :=
  getStr n.props key

/-- `AstNode::get_int`. -/
def AstNode.get_int (n : AstNode) (key : String) : Option Int :=
  match n.props.lookup key with
  | some (.int i) => some i
  | _ => none

/-- `AstNode::get_float`. -/
def AstNode.get_float (n : AstNode) (key : String) : Option ℚ :=
  match n.props.lookup key with
  | some (.float q) => some q
  | _ => none

/-- `AstNode::get_bool`. -/
def AstNode.get_bool (n : AstNode) (key : String) : Option Bool :=
  match n.props.lookup key with
  | some (.bool b) => some b
  | _ => none

/-! ## Type and meaning resolution (`src/compiler/codegen.rs`) -/

/-- The `type_aliases` table: a `HashMap<String, String>` modelled as a
finite map by function. -/
abbrev AliasMap := String → Option String

/-- The `semantic_meanings` table: meaning text to
(resolved rust type, normalized name). -/
abbrev MeaningMap := String → Option (String × String)

/-- `HashMap::insert`: unconditional overwrite. -/
def mapInsert (m : AliasMap) (k v : String) : AliasMap :=
  fun x => if x = k then some v else m x

/-- `HashMap::insert` on the semantic-meaning table. -/
def meaningInsert (m : MeaningMap) (k : String) (v : String × String) :
    MeaningMap :=
  fun x => if x = k then some v else m x

/-- `map_to_rust_type` (codegen.rs lines 1134-1143): primitive DSL names map
to rust primitives, anything else is returned unchanged. -/
def map_to_rust_type (vibe_type : String) : String :=
  match vibe_type with
  | "Int" => "i32"
  | "Float" => "f64"
  | "String" => "String"
  | "Bool" => "bool"
  | "void" => "()"
  | _ => vibe_type

/-- `extract_type_name` (codegen.rs lines 1120-1132): the name under a
`BasicType`, or recursively the name under the first child of a
`MeaningType`. -/
def extract_type_name : AstNode → Option String
  | .mk .BasicType props _ => getStr props "type"
  | .mk .MeaningType _ (c :: _) => extract_type_name c
  | _ => none

/-- `determine_base_type` (codegen.rs lines 1112-1118). -/
def determine_base_type (type_node : AstNode) : String :=
  match extract_type_name type_node with
  | some type_name => map_to_rust_type type_name
  | none => "()"

/-- `resolve_type_alias` (codegen.rs lines 765-774): one single table
lookup; an unknown name is returned unchanged. -/
def resolve_type_alias (type_aliases : AliasMap) (type_name : String) :
    String :=
  match type_aliases type_name with
  | some resolved_type => resolved_type
  | none => type_name

/-- `collect_semantic_meanings` (codegen.rs lines 27-46): one forward pass
over the top-level declarations; for each named `TypeDecl` whose first child
is a `MeaningType` carrying a meaning, insert
meaning ↦ (base type, normalized name). -/
def collect_semantic_meanings (m : MeaningMap) (ast : AstNode) : MeaningMap :=
  ast.children.foldl
    (fun m child =>
      if child.node_type = .TypeDecl then
        match child.get_string "name" with
        | some _ =>
          match child.children with
          | type_child :: _ =>
            if type_child.node_type = .MeaningType then
              match type_child.get_string "meaning" with
              | some meaning =>
                meaningInsert m meaning
                  (determine_base_type type_child,
                    normalize_meaning_to_function_name meaning)
              | none => m
            else m
          | [] => m
        | none => m
      else m)
    m

/-- `determine_return_type` (codegen.rs lines 1052-1072): the first child
that is a `BasicType` carrying a type name, or a `MeaningType` whose first
child carries a type name, mapped to rust; else `"String"`. -/
def determine_return_type (func : AstNode) : String :=
  match func.children.findSome?
      (fun child =>
        match child.node_type with
        | .BasicType => (child.get_string "type").map map_to_rust_type
        | .MeaningType =>
          match child.children with
          | base :: _ => (base.get_string "type").map map_to_rust_type
          | [] => none
        | _ => none) with
  | some t => t
  | none => "String"

/-- `extract_semantic_meaning_from_function` (codegen.rs lines 1074-1081):
the meaning attribute of the first `MeaningType` child of the function node
— and nothing else: no lookup in any alias or meaning table. -/
def extract_semantic_meaning_from_function (func : AstNode) : Option String :=
  match func.children.find? (fun c => decide (c.node_type = .MeaningType)) with
  | some child => child.get_string "meaning"
  | none => none

/-- `determine_return_type_from_context` (codegen.rs lines 858-864). -/
def determine_return_type_from_context
    (current_return_type : Option String) : String :=
  current_return_type.getD "String"

/-- `determine_parameter_type` (codegen.rs lines 1083-1090). -/
def determine_parameter_type (param : AstNode) : String :=
  match param.children.findSome? extract_type_name with
  | some type_name => map_to_rust_type type_name
  | none => "()"

/-- `infer_variable_type` (codegen.rs lines 1092-1110). -/
def infer_variable_type (var : AstNode) : String :=
  match var.children.findSome? extract_type_name with
  | some type_name => map_to_rust_type type_name
  | none =>
    match var.children.findSome?
        (fun child =>
          match child.node_type with
          | .StringLiteral => some "String"
          | .IntLiteral => some "i32"
          | .FloatLiteral => some "f64"
          | .BoolLiteral => some "bool"
          | _ => none) with
    | some t => t
    | none => "()"

/-- `generate_type_declaration` (codegen.rs lines 1208-1233): require the
name attribute, emit the alias text, and record name ↦ resolved base in the
alias table (a `HashMap::insert`, hence an overwrite). -/
def generate_type_declaration (type_aliases : AliasMap)
    (type_decl : AstNode) : Except String (String × AliasMap) :=
  match type_decl.get_string "name" with
  | none => .error "Type declaration missing name"
  | some type_name =>
    let head := "// MTP Type " ++ type_name ++ "\n"
    match type_decl.children with
    | [] => .ok (head ++ "\n", type_aliases)
    | child :: _ =>
      let meaningComment :=
        if child.node_type = .MeaningType then
          match child.get_string "meaning" with
          | some meaning => "// Semantic meaning: \"" ++ meaning ++ "\"\n"
          | none => ""
        else ""
      let base_type := determine_base_type child
      .ok (head ++ meaningComment ++
        "pub type " ++ type_name ++ " = " ++ base_type ++ ";\n\n",
        mapInsert type_aliases type_name base_type)

/-- The first generation pass of `generate` (codegen.rs lines 72-76): a
single forward fold over the top-level declarations, in source order,
processing exactly the `TypeDecl` nodes. -/
def genTypeDeclsFold (acc : String × AliasMap) :
    List AstNode → Except String (String × AliasMap)
  | [] => .ok acc
  | d :: rest =>
    if d.node_type = .TypeDecl then
      match generate_type_declaration acc.2 d with
      | .error e => .error e
      | .ok r => genTypeDeclsFold (acc.1 ++ r.1, r.2) rest
    else genTypeDeclsFold acc rest

/-- The alias table produced by the first generation pass (empty on a
generation error). -/
def foldAliases (decls : List AstNode) : AliasMap :=
  match genTypeDeclsFold ("", fun _ => none) decls with
  | .ok r => r.2
  | .error _ => fun _ => none

/-! ## The code generator (`src/compiler/codegen.rs`) -/

/-- Whether an `Except` result is a success. -/
def isOkE {α : Type} : Except String α → Bool
  | .ok _ => true
  | .error _ => false

/-- Int-typed property lookup. -/
def getIntP (props : List (String × PropValue)) (key : String) : Option Int :=
  match props.lookup key with
  | some (.int i) => some i
  | _ => none

/-- Float-typed property lookup. -/
def getFloatP (props : List (String × PropValue)) (key : String) : Option ℚ :=
  match props.lookup key with
  | some (.float q) => some q
  | _ => none

/-- Bool-typed property lookup. -/
def getBoolP (props : List (String × PropValue)) (key : String) : Option Bool :=
  match props.lookup key with
  | some (.bool b) => some b
  | _ => none

/-- `write_indent`: four spaces per indent level. -/
def indentStr (ind : Nat) : String :=
  String.mk (List.replicate (4 * ind) ' ')

/-- The loop of `extract_template_variables` (codegen.rs lines 1145-1165):
at every `{`, the characters up to the next `}` form a placeholder name,
pushed only when the `}` exists and the name is non-empty. -/
def extractVarsGo : List Char → List String
  | [] => []
  | c :: t =>
    if c = '{' then
      match hdrop : t.dropWhile (fun x => decide (x ≠ '}')) with
      | [] => []
      | _ :: rest =>
        let name := t.takeWhile (fun x => decide (x ≠ '}'))
        if name.isEmpty then extractVarsGo rest
        else String.mk name :: extractVarsGo rest
    else extractVarsGo t
termination_by cs => cs.length
decreasing_by
  · have hsuf := List.IsSuffix.length_le
      (List.dropWhile_suffix (l := t) (fun x => decide (x ≠ '}')))
    rw [hdrop] at hsuf
    simp only [List.length_cons] at hsuf ⊢
    omega
  · simp

/-- `extract_template_variables`. -/
def extract_template_variables (template : String) : List String :=
  extractVarsGo template.toList

mutual

/-- `generate_expression` (codegen.rs lines 923-966): pure; missing
attributes fall back to defaults (`unknown_identifier`, `unknown_function`,
0, …), never to an error. The rendering of a float literal differs
textually from Rust's `f64` display; no claim depends on that text. -/
def generate_expression : AstNode → String
  | .mk .StringLiteral props _ =>
    "\"" ++ ((getStr props "value").getD "") ++ "\".to_string()"
  | .mk .IntLiteral props _ => toString ((getIntP props "value").getD 0)
  | .mk .FloatLiteral props _ => toString ((getFloatP props "value").getD 0)
  | .mk .BoolLiteral props _ => toString ((getBoolP props "value").getD false)
  | .mk .Identifier props _ => (getStr props "name").getD "unknown_identifier"
  | .mk .CallExpr props children =>
    ((getStr props "function").getD "unknown_function") ++ "(" ++
      String.intercalate ", " (genExprList children) ++ ")"
  | .mk _ _ _ => "/* Unsupported expression */"

def genExprList : List AstNode → List String
  | [] => []
  | e :: es => generate_expression e :: genExprList es

end

/-- `generate_type_conversion` (codegen.rs lines 776-856): resolve the
declared return type through the alias table once, then emit the fixed
conversion match for the resolved primitive (text default: the String
conversion). -/
def generate_type_conversion (al : AliasMap) (ind : Nat)
    (return_type : String) : String :=
  let resolved := resolve_type_alias al return_type
  let arms : List String :=
    match resolved with
    | "i32" =>
      ["VibeValue::Number(n) => n as i32,",
        "VibeValue::String(s) => s.parse::<i32>().unwrap_or(0),",
        "VibeValue::Boolean(b) => if b \x7b 1 \x7d else \x7b 0 \x7d,",
        "_ => 0,"]
    | "f64" =>
      ["VibeValue::Number(n) => n,",
        "VibeValue::String(s) => s.parse::<f64>().unwrap_or(0.0),",
        "VibeValue::Boolean(b) => if b \x7b 1.0 \x7d else \x7b 0.0 \x7d,",
        "_ => 0.0,"]
    | "bool" =>
      ["VibeValue::Boolean(b) => b,",
        "VibeValue::String(s) => s.to_lowercase().contains(\"true\") || s.to_lowercase().contains(\"yes\"),",
        "VibeValue::Number(n) => n != 0.0,",
        "_ => false,"]
    | _ =>
      ["VibeValue::String(s) => s,",
        "VibeValue::Number(n) => n.to_string(),",
        "VibeValue::Boolean(b) => b.to_string(),",
        "_ => String::new(),"]
  "return match prompt_result \x7b\n" ++
    String.join (arms.map (fun a => indentStr (ind + 1) ++ a ++ "\n")) ++
    indentStr ind ++ "\x7d;\n"

/-- The `vibe_execute_prompt` call line of `generate_prompt_block`. -/
def vibeCallLine (meaning : Option String) (return_type : String) : String :=
  match meaning with
  | some m =>
    "let prompt_result = vibe_execute_prompt(&formatted_prompt, Some(\"" ++
      m ++ "\"), \"" ++ return_type ++ "\");\n"
  | none =>
    "let prompt_result = vibe_execute_prompt(&formatted_prompt, None, \"" ++
      return_type ++ "\");\n"

/-- `generate_prompt_block` (codegen.rs lines 695-763): requires the
template attribute (error otherwise), extracts the placeholders, emits the
substitution block, the backend call with the current semantic meaning and
the return type resolved from the current context, and the conversion. -/
def generate_prompt_block (al : AliasMap) (meaning : Option String)
    (current_return_type : Option String) (ind : Nat) (prompt : AstNode) :
    Except String String :=
  match prompt.get_string "template" with
  | none => .error "Prompt template not found"
  | some template_str =>
    let vars := extract_template_variables template_str
    let return_type := determine_return_type_from_context current_return_type
    let inner := ind + 1
    .ok (indentStr ind ++ "\x7b\n" ++
      indentStr inner ++ "let prompt_template = \"" ++ template_str ++
        "\";\n" ++
      (if vars.isEmpty then
        indentStr inner ++
          "let formatted_prompt = prompt_template.to_string();\n"
      else
        indentStr inner ++ "let mut variables = HashMap::new();\n" ++
        String.join (vars.map (fun v =>
          indentStr inner ++ "variables.insert(\"" ++ v ++
            "\".to_string(), " ++ v ++ ".to_string());\n")) ++
        indentStr inner ++
          "let formatted_prompt = format_prompt(prompt_template, &variables);\n") ++
      indentStr inner ++ vibeCallLine meaning return_type ++
      indentStr inner ++ generate_type_conversion al inner return_type ++
      indentStr ind ++ "\x7d\n")

mutual

/-- `generate_statement` (codegen.rs lines 680-693) with its sub-generators
for variable declarations, returns, prompts, expression statements and
nested blocks. The only error sources are a variable declaration without a
name and a prompt block without a template. -/
def generate_statement (al : AliasMap) (meaning : Option String)
    (retTy : Option String) (ind : Nat) : AstNode → Except String String
  | .mk .VarDecl props children =>
    match getStr props "name" with
    | none => .error "Variable missing name"
    | some var_name =>
      let var_type := infer_variable_type (.mk .VarDecl props children)
      let initText :=
        match children.find? (fun c =>
          !(decide (c.node_type = .BasicType) ||
            decide (c.node_type = .MeaningType))) with
        | some e => generate_expression e
        | none => ""
      .ok (indentStr ind ++ "let " ++ var_name ++ ": " ++ var_type ++
        " = " ++ initText ++ ";\n")
  | .mk .ReturnStmt _ children =>
    .ok (indentStr ind ++ "return" ++
      (match children with
      | [] => ""
      | e :: _ => " " ++ generate_expression e) ++ ";\n")
  | .mk .PromptBlock props children =>
    generate_prompt_block al meaning retTy ind (.mk .PromptBlock props children)
  | .mk .ExprStmt _ children =>
    .ok (indentStr ind ++
      (match children with
      | [] => ""
      | e :: _ => generate_expression e) ++ ";\n")
  | .mk .Block _ children =>
    match genStmtList al meaning retTy (ind + 1) children with
    | .error e => .error e
    | .ok body =>
      .ok (indentStr ind ++ "\x7b\n" ++ body ++ indentStr ind ++ "\x7d\n")
  | .mk _ _ _ => .ok (indentStr ind ++ "// Unsupported statement type\n")

def genStmtList (al : AliasMap) (meaning : Option String)
    (retTy : Option String) (ind : Nat) : List AstNode → Except String String
  | [] => .ok ""
  | s :: rest =>
    match generate_statement al meaning retTy ind s with
    | .error e => .error e
    | .ok t =>
      match genStmtList al meaning retTy ind rest with
      | .error e => .error e
      | .ok ts => .ok (t ++ ts)

end

/-- `generate_function_body` (codegen.rs lines 668-678): the statements of
the first `FunctionBody` child, in order. -/
def generate_function_body (al : AliasMap) (meaning : Option String)
    (retTy : Option String) (ind : Nat) :
    List AstNode → Except String String
  | [] => .ok ""
  | c :: rest =>
    if c.node_type = .FunctionBody then
      genStmtList al meaning retTy ind c.children
    else generate_function_body al meaning retTy ind rest

/-- `collect_parameters` (codegen.rs lines 648-666): the parameters of the
first `ParamList` child; parameters without a name are silently skipped. -/
def collect_parameters (func : AstNode) : List String :=
  match func.children.find? (fun c => decide (c.node_type = .ParamList)) with
  | some pl =>
    pl.children.filterMap (fun p =>
      if p.node_type = .Parameter then
        (p.get_string "name").map
          (fun nm => nm ++ ": " ++ determine_parameter_type p)
      else none)
  | none => []

/-- `generate_function` (codegen.rs lines 866-896): requires the name
attribute; determines the return type and the inline semantic meaning,
stores them as the context for prompt-block generation, and emits the
signature and body. -/
def generate_function (al : AliasMap) (func : AstNode) :
    Except String String :=
  match func.get_string "name" with
  | none => .error "Function missing name"
  | some func_name =>
    let return_type := determine_return_type func
    let semantic_meaning := extract_semantic_meaning_from_function func
    let params := collect_parameters func
    match generate_function_body al semantic_meaning (some return_type) 1
        func.children with
    | .error e => .error e
    | .ok body =>
      .ok ("pub fn " ++ func_name ++ "(" ++ String.intercalate ", " params ++
        ") -> " ++ return_type ++ " \x7b\n" ++ body ++ "\x7d\n\n")

/-- `generate_method` (codegen.rs lines 1024-1050): like a function but with
`&self`; the source never assigns the prompt context here, so a method body
is generated with the cleared context (no meaning, default return type). -/
def generate_method (al : AliasMap) (func : AstNode) :
    Except String String :=
  match func.get_string "name" with
  | none => .error "Function missing name"
  | some func_name =>
    let return_type := determine_return_type func
    let params := collect_parameters func
    match generate_function_body al none none 2 func.children with
    | .error e => .error e
    | .ok body =>
      .ok (indentStr 1 ++ "pub fn " ++ func_name ++ "(&self" ++
        String.join (params.map (fun p => ", " ++ p)) ++ ") -> " ++
        return_type ++ " \x7b\n" ++ body ++ indentStr 1 ++ "\x7d\n\n")

/-- `generate_struct_fields` (codegen.rs lines 988-1001): members without a
name or type child are silently skipped. -/
def generate_struct_fields (class_node : AstNode) : String :=
  String.join (class_node.children.map (fun child =>
    if child.node_type = .MemberVar then
      match child.get_string "name" with
      | some member_name =>
        match child.children with
        | c0 :: _ =>
          indentStr 1 ++ "pub " ++ member_name ++ ": " ++
            determine_base_type c0 ++ ",\n"
        | [] => ""
      | none => ""
    else ""))

/-- The method traversal of `generate_impl_block`. -/
def genMethodsFold (al : AliasMap) (acc : String) :
    List AstNode → Except String String
  | [] => .ok acc
  | c :: rest =>
    if c.node_type = .FunctionDecl then
      match generate_method al c with
      | .error e => .error e
      | .ok t => genMethodsFold al (acc ++ t) rest
    else genMethodsFold al acc rest

/-- `generate_impl_block` (codegen.rs lines 1003-1022). -/
def generate_impl_block (al : AliasMap) (class_node : AstNode)
    (struct_name : String) : Except String String :=
  match genMethodsFold al "" class_node.children with
  | .error e => .error e
  | .ok ms => .ok ("impl " ++ struct_name ++ " \x7b\n" ++ ms ++ "\x7d\n\n")

/-- `generate_struct_declaration` (codegen.rs lines 968-986): requires the
name attribute. -/
def generate_struct_declaration (al : AliasMap) (class_node : AstNode) :
    Except String String :=
  match class_node.get_string "name" with
  | none => .error "Struct missing name"
  | some struct_name =>
    match generate_impl_block al class_node struct_name with
    | .error e => .error e
    | .ok im =>
      .ok ("#[derive(Debug, Clone)]\npub struct " ++ struct_name ++
        " \x7b\n" ++ generate_struct_fields class_node ++ "\x7d\n\n" ++ im)

/-- The second generation pass of `generate` (codegen.rs lines 79-86):
functions and classes in source order; everything else is skipped. -/
def genDeclsFold (al : AliasMap) (acc : String) :
    List AstNode → Except String String
  | [] => .ok acc
  | d :: rest =>
    match d.node_type with
    | .FunctionDecl =>
      match generate_function al d with
      | .error e => .error e
      | .ok t => genDeclsFold al (acc ++ t) rest
    | .ClassDecl =>
      match generate_struct_declaration al d with
      | .error e => .error e
      | .ok t => genDeclsFold al (acc ++ t) rest
    | _ => genDeclsFold al acc rest

/-- The fixed runtime-support headers plus the synthesized dispatcher and
extraction functions emitted from the collected meanings
(`generate_headers`, codegen.rs lines 91-110). Their emission cannot fail;
the runtime behaviour of the dispatcher text is modelled separately by
`parse_semantic_response` above, so the text is abstracted here. -/
def headersText (_sm : MeaningMap) : String :=
  "<runtime support and synthesized decoder functions>\n"

/-- `generate` (codegen.rs lines 63-89): collect the semantic meanings, emit
the headers, run the type-declaration pass (building the alias table), then
the function/class pass. Any error aborts the whole generation: the result
is an `error` carrying no output. -/
def generate (ast : AstNode) : Except String String :=
  let sm := collect_semantic_meanings (fun _ => none) ast
  match genTypeDeclsFold ("", fun _ => none) ast.children with
  | .error e => .error e
  | .ok fst =>
    match genDeclsFold fst.2 "" ast.children with
    | .error e => .error e
    | .ok snd => .ok (headersText sm ++ fst.1 ++ snd)

/-! ## Success predicates for the generator (used to settle C8) -/

mutual

/-- A statement generates successfully iff every variable declaration in it
carries a name and every prompt block carries a template. -/
def stmtOk : AstNode → Bool
  | .mk .VarDecl props _ => (getStr props "name").isSome
  | .mk .PromptBlock props _ => (getStr props "template").isSome
  | .mk .Block _ children => stmtListOk children
  | .mk _ _ _ => true

def stmtListOk : List AstNode → Bool
  | [] => true
  | s :: rest => stmtOk s && stmtListOk rest

end

/-- The statements of the first `FunctionBody` child are all well-formed. -/
def funcBodyOk : List AstNode → Bool
  | [] => true
  | c :: rest =>
    if c.node_type = .FunctionBody then stmtListOk c.children
    else funcBodyOk rest

/-- A function declaration generates successfully iff it has a name and a
well-formed body. -/
def funcOk (f : AstNode) : Bool :=
  (f.get_string "name").isSome && funcBodyOk f.children

/-- All contained methods are well-formed. -/
def methodsOk : List AstNode → Bool
  | [] => true
  | c :: rest =>
    (if c.node_type = .FunctionDecl then funcOk c else true) && methodsOk rest

/-- A class declaration generates successfully iff it has a name and
well-formed methods. -/
def classOk (c : AstNode) : Bool :=
  (c.get_string "name").isSome && methodsOk c.children

/-- Every top-level type declaration carries a name. -/
def typeDeclsOk : List AstNode → Bool
  | [] => true
  | d :: rest =>
    (if d.node_type = .TypeDecl then (d.get_string "name").isSome else true) &&
      typeDeclsOk rest

/-- Every top-level function/class declaration generates successfully. -/
def declsOk : List AstNode → Bool
  | [] => true
  | d :: rest =>
    (match d.node_type with
      | .FunctionDecl => funcOk d
      | .ClassDecl => classOk d
      | _ => true) && declsOk rest

/-- The whole program generates successfully. -/
def programOk (ast : AstNode) : Bool :=
  typeDeclsOk ast.children && declsOk ast.children

/-! ## The lexer (`src/compiler/parser.rs`, `tokenize`) -/

/-- `TokenType` from `src/compiler/parser.rs`. -/
inductive TokenType where
  | Fn | Type | Class | Import | Let | Return | Prompt | Meaning
  | StringLit | IntLit | FloatLit | BoolLit | Identifier
  | LeftParen | RightParen | LeftBrace | RightBrace | LeftAngle | RightAngle
  | Semicolon | Colon | Equals | Comma | Arrow
  | Eof | Error
deriving DecidableEq, Repr

/-- `Token` from `src/compiler/parser.rs`. -/
structure Token where
  token_type : TokenType
  value : String
  line : Nat
  column : Nat
deriving DecidableEq, Repr

/-- The keyword table of `tokenize` (parser.rs lines 288-299). -/
def classifyIdent (s : String) : TokenType :=
  match s with
  | "fn" => .Fn
  | "type" => .Type
  | "class" => .Class
  | "import" => .Import
  | "let" => .Let
  | "return" => .Return
  | "prompt" => .Prompt
  | "Meaning" => .Meaning
  | "true" => .BoolLit
  | "false" => .BoolLit
  | _ => .Identifier

/-- Continuation characters of an identifier (Rust
`ch.is_alphanumeric() || ch == '_'`, ASCII fragment). -/
def identCont (c : Char) : Bool :=
  c.isAlphanum || c == '_'

/-- The main loop of `tokenize` (parser.rs lines 184-344), faithful to the
source's position arithmetic: the match arm for whitespace adds 1 to the
column AND the loop bottom adds 1 more; a newline sets the column to 1 and
the loop bottom then makes it 2; characters consumed inside the
identifier/number/string scans advance neither counter. The fuel argument
only replaces Rust's structural `while` (one unit per outer iteration, so
the input length is always sufficient). -/
def tokLoop : Nat → List Char → Nat → Nat → List Token
  | _, [], line, column =>
    [{ token_type := .Eof, value := "", line := line, column := column }]
  | 0, _ :: _, _, _ => []
  | fuel + 1, c :: t, line, column =>
    if c = ' ' ∨ c = '\t' ∨ c = '\r' then
      tokLoop fuel t line (column + 1 + 1)
    else if c = '\n' then
      tokLoop fuel t (line + 1) (1 + 1)
    else if c = '(' then
      ⟨.LeftParen, "(", line, column⟩ :: tokLoop fuel t line (column + 1)
    else if c = ')' then
      ⟨.RightParen, ")", line, column⟩ :: tokLoop fuel t line (column + 1)
    else if c = '{' then
      ⟨.LeftBrace, "\x7b", line, column⟩ :: tokLoop fuel t line (column + 1)
    else if c = '}' then
      ⟨.RightBrace, "\x7d", line, column⟩ :: tokLoop fuel t line (column + 1)
    else if c = '<' then
      ⟨.LeftAngle, "<", line, column⟩ :: tokLoop fuel t line (column + 1)
    else if c = '>' then
      ⟨.RightAngle, ">", line, column⟩ :: tokLoop fuel t line (column + 1)
    else if c = ';' then
      ⟨.Semicolon, ";", line, column⟩ :: tokLoop fuel t line (column + 1)
    else if c = ':' then
      ⟨.Colon, ":", line, column⟩ :: tokLoop fuel t line (column + 1)
    else if c = '=' then
      ⟨.Equals, "=", line, column⟩ :: tokLoop fuel t line (column + 1)
    else if c = ',' then
      ⟨.Comma, ",", line, column⟩ :: tokLoop fuel t line (column + 1)
    else if c = '"' then
      let content := t.takeWhile (fun x => decide (x ≠ '"'))
      let rest := (t.dropWhile (fun x => decide (x ≠ '"'))).drop 1
      ⟨.StringLit, String.mk content, line, column⟩ ::
        tokLoop fuel rest line (column + 1)
    else if c = '-' ∧ t.head? = some '>' then
      ⟨.Arrow, "->", line, column⟩ :: tokLoop fuel (t.drop 1) line (column + 1)
    else if c.isAlpha ∨ c = '_' then
      let identifier := String.mk (c :: t.takeWhile identCont)
      ⟨classifyIdent identifier, identifier, line, column⟩ ::
        tokLoop fuel (t.dropWhile identCont) line (column + 1)
    else if c.isDigit then
      let d1 := t.takeWhile Char.isDigit
      let t1 := t.dropWhile Char.isDigit
      if t1.head? = some '.' then
        let d2 := (t1.drop 1).takeWhile Char.isDigit
        ⟨.FloatLit, String.mk (c :: d1 ++ '.' :: d2), line, column⟩ ::
          tokLoop fuel ((t1.drop 1).dropWhile Char.isDigit) line (column + 1)
      else
        ⟨.IntLit, String.mk (c :: d1), line, column⟩ ::
          tokLoop fuel t1 line (column + 1)
    else
      tokLoop fuel t line (column + 1)

/-- `tokenize` (parser.rs lines 178-354). -/
def tokenize (input : String) : List Token :=
  tokLoop input.toList.length input.toList 1 1

/-! ## The parser (`src/compiler/parser.rs`) -/

instance : Inhabited Token := ⟨⟨.Eof, "", 0, 0⟩⟩

/-- `AstNode::new`. -/
def AstNode.new (t : AstNodeType) : AstNode := .mk t [] []

/-- `AstNode::set_string` (HashMap overwrite: newest entry first). -/
def AstNode.set_string (n : AstNode) (k v : String) : AstNode :=
  .mk n.node_type ((k, .str v) :: n.props) n.children

/-- `AstNode::set_int`. -/
def AstNode.set_int (n : AstNode) (k : String) (v : Int) : AstNode :=
  .mk n.node_type ((k, .int v) :: n.props) n.children

/-- `AstNode::set_float`. -/
def AstNode.set_float (n : AstNode) (k : String) (v : ℚ) : AstNode :=
  .mk n.node_type ((k, .float v) :: n.props) n.children

/-- `AstNode::set_bool`. -/
def AstNode.set_bool (n : AstNode) (k : String) (v : Bool) : AstNode :=
  .mk n.node_type ((k, .bool v) :: n.props) n.children

/-- `AstNode::add_child` (append-only child insertion). -/
def AstNode.add_child (n : AstNode) (c : AstNode) : AstNode :=
  .mk n.node_type n.props (n.children ++ [c])

/-- The parser state: the token vector and the cursor (`Parser` struct). -/
structure PState where
  tokens : List Token
  current : Nat
deriving Repr

/-- `Parser::peek`. Out-of-range access (impossible on `tokenize` output,
whose last token is `Eof` and whose cursor never passes it) yields the
end-of-input token. -/
def PState.peek (st : PState) : Token :=
  st.tokens.getD st.current default

/-- `Parser::is_at_end`. -/
def PState.is_at_end (st : PState) : Bool :=
  st.peek.token_type == .Eof

/-- `Parser::previous`. -/
def PState.previous (st : PState) : Token :=
  st.tokens.getD (st.current - 1) default

/-- The cursor movement of `Parser::advance`. -/
def PState.advanceState (st : PState) : PState :=
  if st.is_at_end then st else { st with current := st.current + 1 }

/-- `Parser::check` (parser.rs lines 387-393): false at end of input. -/
def PState.check (st : PState) (tt : TokenType) : Bool :=
  if st.is_at_end then false else st.peek.token_type == tt

/-- The parser monad: Rust's `&mut self` methods returning `Result`; on an
error the state keeps the tokens already consumed, which is what
panic-mode recovery relies on. -/
def M (α : Type) : Type := PState → Except String α × PState

instance : Monad M where
  pure a := fun st => (.ok a, st)
  bind x f := fun st =>
    match x st with
    | (.ok a, st2) => f a st2
    | (.error e, st2) => (.error e, st2)

/-- Fail with a message, keeping the state. -/
def throwM {α : Type} (e : String) : M α := fun st => (.error e, st)

/-- Read the parser state. -/
def getSt : M PState := fun st => (.ok st, st)

/-- Apply a state transformation. -/
def modifySt (f : PState → PState) : M Unit := fun st => (.ok (), f st)

/-- Run a sub-parser, reifying its error (Rust's `match self.parse_x()`). -/
def mTry {α : Type} (x : M α) : M (Except String α) := fun st =>
  match x st with
  | (.ok a, st2) => (.ok (.ok a), st2)
  | (.error e, st2) => (.ok (.error e), st2)

/-- `Parser::advance`: move unless at end, return the previous token. -/
def mAdvance : M Token := fun st =>
  let st2 := st.advanceState
  (.ok st2.previous, st2)

/-- `Parser::match_token`. -/
def mMatch (tt : TokenType) : M Bool := fun st =>
  if st.check tt then (.ok true, st.advanceState) else (.ok false, st)

/-- `Parser::consume` (parser.rs lines 356-367). -/
def consume (tt : TokenType) : M Unit := do
  let st ← getSt
  if st.check tt then
    let _ ← mAdvance
    pure ()
  else throwM "Expected token"

/-- `Parser::consume_identifier`. -/
def consume_identifier : M String := do
  let st ← getSt
  if st.check .Identifier then
    let tok ← mAdvance
    pure tok.value
  else throwM "Expected identifier"

/-- `Parser::consume_string_literal`. -/
def consume_string_literal : M String := do
  let st ← getSt
  if st.check .StringLit then
    let tok ← mAdvance
    pure tok.value
  else throwM "Expected string literal"

/-- The loop of `Parser::synchronize` (parser.rs lines 426-437): stop at end
of input, after having consumed a semicolon, or in front of a
class/fn/let/return keyword; otherwise advance. The fuel replaces the
structural `while` (the token count is always sufficient, since each step
moves the cursor toward the end). -/
def syncLoop : Nat → PState → PState
  | 0, st => st
  | fuel + 1, st =>
    if st.is_at_end then st
    else if st.previous.token_type = .Semicolon then st
    else if st.peek.token_type = .Class ∨ st.peek.token_type = .Fn ∨
        st.peek.token_type = .Let ∨ st.peek.token_type = .Return then st
    else syncLoop fuel st.advanceState

/-- `Parser::synchronize` (parser.rs lines 423-438): advance once, then
resynchronize. -/
def synchronize (st : PState) : PState :=
  syncLoop st.tokens.length st.advanceState

/-- `str::parse::<i64>` (for integer literals): digits with optional sign,
within the i64 range. -/
def parseI64 (s : String) : Option Int :=
  let p : Int × List Char :=
    match s.toList with
    | '+' :: r => (1, r)
    | '-' :: r => (-1, r)
    | r => (1, r)
  if p.2 ≠ [] ∧ p.2.all Char.isDigit then
    let v : Int := p.1 * (digitsToNat p.2 : Int)
    if -(2 ^ 63) ≤ v ∧ v ≤ 2 ^ 63 - 1 then some v else none
  else none

/-! ### Recursive-descent productions (fuel replaces Rust's call stack;
every recursive call strictly decreases it, and the fuel chosen in
`parse_string` is always sufficient for the inputs proved about). -/

mutual

/-- `Parser::parse_declaration` (parser.rs lines 80-88). -/
def parse_declaration (fuel : Nat) : M AstNode :=
  match fuel with
  | 0 => throwM "fuel exhausted"
  | fuel + 1 => do
    let st ← getSt
    match st.peek.token_type with
    | .Fn => parse_function_declaration fuel
    | .Type => parse_type_declaration fuel
    | .Class => parse_class_declaration fuel
    | .Import => parse_import_declaration fuel
    | _ => throwM ("Expected declaration at line " ++ toString st.peek.line)

/-- `Parser::parse_function_declaration` (parser.rs lines 90-120). -/
def parse_function_declaration (fuel : Nat) : M AstNode :=
  match fuel with
  | 0 => throwM "fuel exhausted"
  | fuel + 1 => do
    consume .Fn
    let name ← consume_identifier
    let func := (AstNode.new .FunctionDecl).set_string "name" name
    consume .LeftParen
    let st ← getSt
    let func ← (if ¬ st.check .RightParen then do
        let params ← parse_parameter_list fuel
        pure (func.add_child params)
      else pure func)
    consume .RightParen
    let hasArrow ← mMatch .Arrow
    let func ← (if hasArrow then do
        let return_type ← parse_type fuel
        pure (func.add_child return_type)
      else pure func)
    let body ← parse_block fuel
    let func_body := AstNode.mk .FunctionBody [] body.children
    pure (func.add_child func_body)

/-- `Parser::parse_type_declaration` (parser.rs lines 122-134). -/
def parse_type_declaration (fuel : Nat) : M AstNode :=
  match fuel with
  | 0 => throwM "fuel exhausted"
  | fuel + 1 => do
    consume .Type
    let name ← consume_identifier
    consume .Equals
    let type_def ← parse_type fuel
    consume .Semicolon
    pure (((AstNode.new .TypeDecl).set_string "name" name).add_child type_def)

/-- `Parser::parse_type` (parser.rs lines 136-142). -/
def parse_type (fuel : Nat) : M AstNode :=
  match fuel with
  | 0 => throwM "fuel exhausted"
  | fuel + 1 => do
    let isMeaning ← mMatch .Meaning
    if isMeaning then parse_meaning_type fuel else parse_basic_type fuel

/-- `Parser::parse_meaning_type` (parser.rs lines 144-157). -/
def parse_meaning_type (fuel : Nat) : M AstNode :=
  match fuel with
  | 0 => throwM "fuel exhausted"
  | fuel + 1 => do
    consume .LeftAngle
    let base_type ← parse_type fuel
    consume .RightAngle
    consume .LeftParen
    let meaning ← consume_string_literal
    consume .RightParen
    pure (((AstNode.new .MeaningType).set_string "meaning" meaning).add_child
      base_type)

/-- `Parser::parse_basic_type` (parser.rs lines 159-164). -/
def parse_basic_type (fuel : Nat) : M AstNode :=
  match fuel with
  | 0 => throwM "fuel exhausted"
  | _ + 1 => do
    let name ← consume_identifier
    pure ((AstNode.new .BasicType).set_string "type" name)

/-- `Parser::parse_prompt_statement` (parser.rs lines 166-175). -/
def parse_prompt_statement (fuel : Nat) : M AstNode :=
  match fuel with
  | 0 => throwM "fuel exhausted"
  | _ + 1 => do
    consume .Prompt
    let template ← consume_string_literal
    consume .Semicolon
    pure ((AstNode.new .PromptBlock).set_string "template" template)

/-- `Parser::parse_parameter_list` (parser.rs lines 441-454). -/
def parse_parameter_list (fuel : Nat) : M AstNode :=
  match fuel with
  | 0 => throwM "fuel exhausted"
  | fuel + 1 => parseParamsLoop fuel (AstNode.new .ParamList)

/-- The do-while loop of `parse_parameter_list`. -/
def parseParamsLoop (fuel : Nat) (params : AstNode) : M AstNode :=
  match fuel with
  | 0 => throwM "fuel exhausted"
  | fuel + 1 => do
    let param ← parse_parameter fuel
    let params := params.add_child param
    let more ← mMatch .Comma
    if more then parseParamsLoop fuel params else pure params

/-- `Parser::parse_parameter` (parser.rs lines 456-466). -/
def parse_parameter (fuel : Nat) : M AstNode :=
  match fuel with
  | 0 => throwM "fuel exhausted"
  | fuel + 1 => do
    let name ← consume_identifier
    consume .Colon
    let param_type ← parse_type fuel
    pure (((AstNode.new .Parameter).set_string "name" name).add_child
      param_type)

/-- `Parser::parse_block` (parser.rs lines 468-484): statement errors are
reported and recovered from via `synchronize`. -/
def parse_block (fuel : Nat) : M AstNode :=
  match fuel with
  | 0 => throwM "fuel exhausted"
  | fuel + 1 => do
    consume .LeftBrace
    let block ← parseBlockLoop fuel (AstNode.new .Block)
    consume .RightBrace
    pure block

/-- The statement loop of `parse_block`, with panic-mode recovery. -/
def parseBlockLoop (fuel : Nat) (block : AstNode) : M AstNode :=
  match fuel with
  | 0 => throwM "fuel exhausted"
  | fuel + 1 => do
    let st ← getSt
    if ¬ st.check .RightBrace ∧ ¬ st.is_at_end then do
      let r ← mTry (parse_statement fuel)
      match r with
      | .ok stmt => parseBlockLoop fuel (block.add_child stmt)
      | .error _ => do
        modifySt synchronize
        parseBlockLoop fuel block
    else pure block

/-- `Parser::parse_statement` (parser.rs lines 486-494). -/
def parse_statement (fuel : Nat) : M AstNode :=
  match fuel with
  | 0 => throwM "fuel exhausted"
  | fuel + 1 => do
    let st ← getSt
    match st.peek.token_type with
    | .Let => parse_variable_declaration fuel
    | .Return => parse_return_statement fuel
    | .Prompt => parse_prompt_statement fuel
    | .LeftBrace => parse_block fuel
    | _ => parse_expression_statement fuel

/-- `Parser::parse_variable_declaration` (parser.rs lines 496-515). -/
def parse_variable_declaration (fuel : Nat) : M AstNode :=
  match fuel with
  | 0 => throwM "fuel exhausted"
  | fuel + 1 => do
    consume .Let
    let name ← consume_identifier
    let var_decl := (AstNode.new .VarDecl).set_string "name" name
    let hasColon ← mMatch .Colon
    let var_decl ← (if hasColon then do
        let var_type ← parse_type fuel
        pure (var_decl.add_child var_type)
      else pure var_decl)
    consume .Equals
    let init_expr ← parse_expression fuel
    let var_decl := var_decl.add_child init_expr
    consume .Semicolon
    pure var_decl

/-- `Parser::parse_return_statement` (parser.rs lines 517-528). -/
def parse_return_statement (fuel : Nat) : M AstNode :=
  match fuel with
  | 0 => throwM "fuel exhausted"
  | fuel + 1 => do
    consume .Return
    let st ← getSt
    let ret ← (if ¬ st.check .Semicolon then do
        let expr ← parse_expression fuel
        pure ((AstNode.new .ReturnStmt).add_child expr)
      else pure (AstNode.new .ReturnStmt))
    consume .Semicolon
    pure ret

/-- `Parser::parse_expression_statement` (parser.rs lines 530-538). -/
def parse_expression_statement (fuel : Nat) : M AstNode :=
  match fuel with
  | 0 => throwM "fuel exhausted"
  | fuel + 1 => do
    let expr ← parse_expression fuel
    consume .Semicolon
    pure ((AstNode.new .ExprStmt).add_child expr)

/-- `Parser::parse_expression` (parser.rs lines 540-542). -/
def parse_expression (fuel : Nat) : M AstNode :=
  match fuel with
  | 0 => throwM "fuel exhausted"
  | fuel + 1 => parse_call_expression fuel

/-- `Parser::parse_call_expression` (parser.rs lines 544-565). -/
def parse_call_expression (fuel : Nat) : M AstNode :=
  match fuel with
  | 0 => throwM "fuel exhausted"
  | fuel + 1 => do
    let expr ← parse_primary fuel
    parseCallLoop fuel expr

/-- The call-suffix loop of `parse_call_expression`. -/
def parseCallLoop (fuel : Nat) (expr : AstNode) : M AstNode :=
  match fuel with
  | 0 => throwM "fuel exhausted"
  | fuel + 1 => do
    let opened ← mMatch .LeftParen
    if opened then do
      let call := AstNode.new .CallExpr
      let call :=
        match expr.get_string "name" with
        | some name => call.set_string "function" name
        | none => call
      let st ← getSt
      let call ← (if ¬ st.check .RightParen then do
          let args ← parse_argument_list fuel
          pure (AstNode.mk call.node_type call.props
            (call.children ++ args.children))
        else pure call)
      consume .RightParen
      parseCallLoop fuel call
    else pure expr

/-- `Parser::parse_argument_list` (parser.rs lines 567-580). -/
def parse_argument_list (fuel : Nat) : M AstNode :=
  match fuel with
  | 0 => throwM "fuel exhausted"
  | fuel + 1 => parseArgsLoop fuel (AstNode.new .ParamList)

/-- The do-while loop of `parse_argument_list`. -/
def parseArgsLoop (fuel : Nat) (args : AstNode) : M AstNode :=
  match fuel with
  | 0 => throwM "fuel exhausted"
  | fuel + 1 => do
    let arg ← parse_expression fuel
    let args := args.add_child arg
    let more ← mMatch .Comma
    if more then parseArgsLoop fuel args else pure args

/-- `Parser::parse_primary` (parser.rs lines 582-616). -/
def parse_primary (fuel : Nat) : M AstNode :=
  match fuel with
  | 0 => throwM "fuel exhausted"
  | _ + 1 => do
    let token ← mAdvance
    match token.token_type with
    | .StringLit =>
      pure ((AstNode.new .StringLiteral).set_string "value" token.value)
    | .IntLit =>
      pure ((AstNode.new .IntLiteral).set_int "value"
        ((parseI64 token.value).getD 0))
    | .FloatLit =>
      pure ((AstNode.new .FloatLiteral).set_float "value"
        ((parseDecimal token.value).getD 0))
    | .BoolLit =>
      pure ((AstNode.new .BoolLiteral).set_bool "value"
        (token.value == "true"))
    | .Identifier =>
      pure ((AstNode.new .Identifier).set_string "name" token.value)
    | _ => throwM "Unexpected token in expression"

/-- `Parser::parse_class_declaration` (parser.rs lines 618-638), with
panic-mode recovery on member errors. -/
def parse_class_declaration (fuel : Nat) : M AstNode :=
  match fuel with
  | 0 => throwM "fuel exhausted"
  | fuel + 1 => do
    consume .Class
    let name ← consume_identifier
    consume .LeftBrace
    let class_node ←
      parseClassLoop fuel ((AstNode.new .ClassDecl).set_string "name" name)
    consume .RightBrace
    pure class_node

/-- The member loop of `parse_class_declaration`. -/
def parseClassLoop (fuel : Nat) (class_node : AstNode) : M AstNode :=
  match fuel with
  | 0 => throwM "fuel exhausted"
  | fuel + 1 => do
    let st ← getSt
    if ¬ st.check .RightBrace ∧ ¬ st.is_at_end then do
      let r ← mTry (parse_class_member fuel)
      match r with
      | .ok member => parseClassLoop fuel (class_node.add_child member)
      | .error _ => do
        modifySt synchronize
        parseClassLoop fuel class_node
    else pure class_node

/-- `Parser::parse_class_member` (parser.rs lines 640-646). -/
def parse_class_member (fuel : Nat) : M AstNode :=
  match fuel with
  | 0 => throwM "fuel exhausted"
  | fuel + 1 => do
    let st ← getSt
    match st.peek.token_type with
    | .Fn => parse_function_declaration fuel
    | .Identifier => parse_member_variable fuel
    | _ => throwM "Expected class member"

/-- `Parser::parse_member_variable` (parser.rs lines 648-659). -/
def parse_member_variable (fuel : Nat) : M AstNode :=
  match fuel with
  | 0 => throwM "fuel exhausted"
  | fuel + 1 => do
    let name ← consume_identifier
    consume .Colon
    let var_type ← parse_type fuel
    consume .Semicolon
    pure (((AstNode.new .MemberVar).set_string "name" name).add_child
      var_type)

/-- `Parser::parse_import_declaration` (parser.rs lines 661-670). -/
def parse_import_declaration (fuel : Nat) : M AstNode :=
  match fuel with
  | 0 => throwM "fuel exhausted"
  | _ + 1 => do
    consume .Import
    let path ← consume_string_literal
    consume .Semicolon
    pure ((AstNode.new .Import).set_string "path" path)

end

/-- The declaration loop of `parse_program` (parser.rs lines 64-78):
declaration errors are reported to the diagnostic sink and recovered from
via `synchronize`; parsing itself always returns a (partial) program. -/
def parseProgramLoop (fuel : Nat) (program : AstNode) : M AstNode :=
  match fuel with
  | 0 => throwM "fuel exhausted"
  | fuel + 1 => do
    let st ← getSt
    if ¬ st.is_at_end then do
      let r ← mTry (parse_declaration fuel)
      match r with
      | .ok decl => parseProgramLoop fuel (program.add_child decl)
      | .error _ => do
        modifySt synchronize
        parseProgramLoop fuel program
    else pure program

/-- `Parser::parse_program`. -/
def parse_program (fuel : Nat) : M AstNode :=
  parseProgramLoop fuel (AstNode.new .Program)

/-- `parse_string` (parser.rs lines 673-676): tokenize, then parse. The
fuel bound is generous for the inputs proved about (each loop iteration and
nesting level consumes one unit). -/
def parse_string (source : String) : Except String AstNode :=
  (parse_program (4 * source.toList.length + 64)
    { tokens := tokenize source, current := 0 }).1

/-- The parsed program, or an empty program on a parse error (projection
used to state concrete facts about parse results). -/
def parseOrEmpty (source : String) : AstNode :=
  match parse_string source with
  | .ok p => p
  | .error _ => AstNode.new .Program

/-! ## Concrete program fixtures used by the claim instances -/

/-- A `BasicType` node as built by `parse_basic_type`. -/
def astBasicType (type_name : String) : AstNode :=
  .mk .BasicType [("type", .str type_name)] []

/-- A `MeaningType` node as built by `parse_meaning_type`. -/
def astMeaningType (meaning : String) (base : AstNode) : AstNode :=
  .mk .MeaningType [("meaning", .str meaning)] [base]

/-- A `TypeDecl` node as built by `parse_type_declaration`. -/
def astTypeDecl (name : String) (type_def : AstNode) : AstNode :=
  .mk .TypeDecl [("name", .str name)] [type_def]

/-- `type Joke = Meaning<String>("a short humorous line");` -/
def jokeTypeDecl : AstNode :=
  astTypeDecl "Joke" (astMeaningType "a short humorous line"
    (astBasicType "String"))

/-- `type Topic = Meaning<String>("topic for the joke");` -/
def topicTypeDecl : AstNode :=
  astTypeDecl "Topic" (astMeaningType "topic for the joke"
    (astBasicType "String"))

/-- `fn tellJoke(topic: Topic) -> Joke { prompt "..."; }` as parsed: the
declared return type is the bare alias name `Joke`, not an inline meaning. -/
def tellJokeFn : AstNode :=
  .mk .FunctionDecl [("name", .str "tellJoke")]
    [.mk .ParamList []
        [.mk .Parameter [("name", .str "topic")] [astBasicType "Topic"]],
      astBasicType "Joke",
      .mk .FunctionBody []
        [.mk .PromptBlock
            [("template", .str "Tell me a short joke about {topic}.")] []]]

/-- A function with an inline `Meaning` return annotation. -/
def getTemperatureFn : AstNode :=
  .mk .FunctionDecl [("name", .str "get_temperature")]
    [.mk .ParamList []
        [.mk .Parameter [("name", .str "city")] [astBasicType "String"]],
      astMeaningType "temperature in Celsius" (astBasicType "Int"),
      .mk .FunctionBody []
        [.mk .PromptBlock
            [("template", .str "What is the temperature in {city}?")] []]]

/-- The program of the repository's own inheritance test
(`tests/test_unit_extra.rs`). -/
def jokeProgram : AstNode :=
  .mk .Program [] [jokeTypeDecl, topicTypeDecl, tellJokeFn]

/-- `type A = Int;` -/
def aliasDeclA : AstNode := astTypeDecl "A" (astBasicType "Int")

/-- `type B = A;` — an alias declared in terms of another alias. -/
def aliasDeclB : AstNode := astTypeDecl "B" (astBasicType "A")

/-- `type T = Int;` -/
def dupDecl1 : AstNode := astTypeDecl "T" (astBasicType "Int")

/-- `type T = String;` — a second declaration of the same name. -/
def dupDecl2 : AstNode := astTypeDecl "T" (astBasicType "String")

/-- `type X = Meaning<Int>("shared meaning");` -/
def dupMeaning1 : AstNode :=
  astTypeDecl "X" (astMeaningType "shared meaning" (astBasicType "Int"))

/-- `type Y = Meaning<String>("shared meaning");` — a second declaration
carrying the same meaning text. -/
def dupMeaning2 : AstNode :=
  astTypeDecl "Y" (astMeaningType "shared meaning" (astBasicType "String"))

/-- A program with two type declarations carrying the same meaning text. -/
def dupMeaningProgram : AstNode :=
  .mk .Program [] [dupMeaning1, dupMeaning2]

/-- A source file whose first function body contains one malformed
statement (`let = 5;`) between otherwise valid code, followed by a second
valid declaration. -/
def recoverySource : String :=
  "fn good() -> String \x7b let = 5; return x; \x7d fn later() -> Int \x7b return 2; \x7d"

/-- A parser state inside `let = 5; return x;` with the cursor on `=`, as
reached when `parse_variable_declaration` fails on the missing
identifier. -/
def resyncState : PState :=
  { tokens := tokenize "let = 5; return x;", current := 1 }

/-- A function declaration with no return-type annotation. -/
def noReturnTypeFn : AstNode :=
  .mk .FunctionDecl [("name", .str "get_info")]
    [.mk .ParamList []
        [.mk .Parameter [("name", .str "q")] [astBasicType "String"]],
      .mk .FunctionBody []
        [.mk .PromptBlock [("template", .str "Tell me about {q}.")] []]]

/-! ## Helper lemmas -/

/-- `splitUnderscore` never returns the empty list of fragments. -/
theorem splitUnderscore_ne_nil : ∀ cs : List Char, splitUnderscore cs ≠ [] := by
  intro cs
  induction cs with
  | nil => simp [splitUnderscore]
  | cons a t ih =>
    simp only [splitUnderscore]
    split
    · simp
    · cases hr : splitUnderscore t <;> simp

/-- Every character of a fragment produced by `splitUnderscore` occurs in the
input. -/
theorem mem_of_mem_splitUnderscore :
    ∀ (cs w : List Char), w ∈ splitUnderscore cs → ∀ c ∈ w, c ∈ cs := by
  intro cs
  induction cs with
  | nil =>
    intro w hw c hc
    simp only [splitUnderscore, List.mem_singleton] at hw
    subst hw
    simp at hc
  | cons a t ih =>
    intro w hw c hc
    simp only [splitUnderscore] at hw
    by_cases ha : a = '_'
    · rw [if_pos ha] at hw
      rcases List.mem_cons.mp hw with rfl | hw2
      · simp at hc
      · exact List.mem_cons_of_mem _ (ih w hw2 c hc)
    · rw [if_neg ha] at hw
      cases hr : splitUnderscore t with
      | nil => exact absurd hr (splitUnderscore_ne_nil t)
      | cons w0 ws =>
        rw [hr] at hw
        rcases List.mem_cons.mp hw with rfl | hw2
        · rcases List.mem_cons.mp hc with rfl | hc2
          · exact List.mem_cons_self _ _
          · exact List.mem_cons_of_mem _
              (ih w0 (hr ▸ List.mem_cons_self w0 ws) c hc2)
        · exact List.mem_cons_of_mem _
            (ih w (hr ▸ List.mem_cons_of_mem w0 hw2) c hc)

/-- Every character of a joined fragment list is a separator or a character of
one of the fragments. -/
theorem mem_of_mem_joinUnderscore :
    ∀ (ws : List (List Char)) (c : Char), c ∈ joinUnderscore ws →
      c = '_' ∨ ∃ w ∈ ws, c ∈ w
  | [], c, h => by simp [joinUnderscore] at h
  | [w], c, h => by
    simp only [joinUnderscore] at h
    exact Or.inr ⟨w, List.mem_singleton_self w, h⟩
  | w :: v :: ws, c, h => by
    simp only [joinUnderscore, List.mem_append, List.mem_cons] at h
    rcases h with hw | hc | hrest
    · exact Or.inr ⟨w, List.mem_cons_self _ _, hw⟩
    · exact Or.inl hc
    · rcases mem_of_mem_joinUnderscore (v :: ws) c hrest with h1 | ⟨u, hu, hcu⟩
      · exact Or.inl h1
      · exact Or.inr ⟨u, List.mem_cons_of_mem _ hu, hcu⟩

/-- Joining a non-empty list of non-empty fragments yields a non-empty list. -/
theorem joinUnderscore_ne_nil :
    ∀ ws : List (List Char), ws ≠ [] → (∀ w ∈ ws, w ≠ []) →
      joinUnderscore ws ≠ []
  | [], h, _ => absurd rfl h
  | [w], _, hw => by
    simpa [joinUnderscore] using hw w (List.mem_singleton_self w)
  | w :: v :: ws, _, hw => by
    simp only [joinUnderscore]
    intro hcontra
    rcases List.append_eq_nil.mp hcontra with ⟨hw0, _⟩
    exact hw w (List.mem_cons_self _ _) hw0

/-- The output characters of `normChar` are alphanumeric or underscore. -/
theorem normChar_word (c : Char) : (normChar c).isAlphanum = true ∨ normChar c = '_' := by
  by_cases h : (c.toLower).isAlphanum = true
  · exact Or.inl (by simp [normChar, h])
  · exact Or.inr (by simp [normChar, h])

/-! ## C3 and C5 -/

/-- C3: the conversion of a decoded tri-variant value to a declared `i32`
return type, as emitted by `generate_type_conversion`, is total (a case for
every variant) and follows the fixed rules: a number is truncated toward zero
(floor for non-negative, ceiling for negative, within the i32 range), a text
variant is parsed with default `0` on parse failure, and a boolean maps to
`1`/`0`; the remaining `Null` variant maps to `0`. No case panics. -/
theorem generated_i32_conversion_rules (q : ℚ) (s : String) (b : Bool) :
    (0 ≤ q → q ≤ 2 ^ 31 - 1 → generatedI32Conversion (.Number q) = ⌊q⌋) ∧
    (q < 0 → -(2 ^ 31) ≤ q → generatedI32Conversion (.Number q) = ⌈q⌉) ∧
    (∀ n, parseI32 s = some n → generatedI32Conversion (.String s) = n) ∧
    (parseI32 s = none → generatedI32Conversion (.String s) = 0) ∧
    generatedI32Conversion (.Boolean b) = (if b then 1 else 0) ∧
    generatedI32Conversion .Null = 0 := by
  refine ⟨?_, ?_, ?_, ?_, rfl, rfl⟩
  · intro h0 h1
    have htr : ratTrunc q = ⌊q⌋ := by simp [ratTrunc, h0]
    have hlow : (0 : Int) ≤ ⌊q⌋ := Int.floor_nonneg.mpr h0
    have hhigh : ⌊q⌋ ≤ 2 ^ 31 - 1 := by
      have h2 : ⌊q⌋ ≤ ⌊((2 ^ 31 - 1 : Int) : ℚ)⌋ :=
        Int.floor_le_floor (by push_cast; linarith)
      rwa [Int.floor_intCast] at h2
    simp only [generatedI32Conversion, f64AsI32, htr]
    omega
  · intro h0 h1
    have htr : ratTrunc q = ⌈q⌉ := by
      simp [ratTrunc, not_le.mpr h0]
    have hhigh : ⌈q⌉ ≤ 0 := Int.ceil_le.mpr (by push_cast; linarith)
    have hlow : -(2 ^ 31) ≤ ⌈q⌉ := by
      have h2 : ⌈((-(2 ^ 31) : Int) : ℚ)⌉ ≤ ⌈q⌉ :=
        Int.ceil_le_ceil (by push_cast; linarith)
      rwa [Int.ceil_intCast] at h2
    simp only [generatedI32Conversion, f64AsI32, htr]
    omega
  · intro n hn
    simp [generatedI32Conversion, hn]
  · intro hn
    simp [generatedI32Conversion, hn]

/-- Witness for C3 at concrete inputs. -/
theorem generated_i32_conversion_rules_witness :
    generatedI32Conversion (.Number (7 / 2)) = ⌊(7 / 2 : ℚ)⌋ ∧
    generatedI32Conversion (.Number (-(7 / 2))) = ⌈(-(7 / 2) : ℚ)⌉ ∧
    generatedI32Conversion (.String "42") = 42 ∧
    generatedI32Conversion (.String "abc") = 0 := by
  refine ⟨?_, ?_, ?_, ?_⟩
  · exact (generated_i32_conversion_rules (7 / 2) "" true).1
      (by norm_num) (by norm_num)
  · exact (generated_i32_conversion_rules (-(7 / 2)) "" true).2.1
      (by norm_num) (by norm_num)
  · exact (generated_i32_conversion_rules 0 "42" true).2.2.1 42 (by decide)
  · exact (generated_i32_conversion_rules 0 "abc" true).2.2.2.1 (by decide)

/-- Counterexample to C5 as stated: the meaning string `"the"` consists only
of a stop word, and its normalized identifier is the empty string, which is
not a non-empty valid bare identifier. -/
theorem normalize_meaning_empty_counterexample :
    normalize_meaning_to_function_name "the" = "" := by decide

/-- C5 (amended): normalization lower-cases, collapses non-alphanumeric runs
to underscores, and removes the stop words `a`, `an`, `the`, `of`, `in`; every
character of the result is alphanumeric or an underscore, and the result is
non-empty whenever at least one non-stop-word fragment survives the filter
(it is empty for meanings made only of stop words and separators). The two
spec examples normalize exactly as claimed, without their leading articles. -/
theorem normalize_meaning_charset_and_examples (meaning : String) :
    (∀ c ∈ (normalize_meaning_to_function_name meaning).toList,
      c.isAlphanum = true ∨ c = '_') ∧
    ((splitUnderscore (meaning.toList.map normChar)).filter keepWord ≠ [] →
      normalize_meaning_to_function_name meaning ≠ "") ∧
    normalize_meaning_to_function_name "the capital city of a country" =
      "capital_city_country" ∧
    normalize_meaning_to_function_name "a capital city" = "capital_city" := by
  refine ⟨?_, ?_, by decide, by decide⟩
  · intro c hc
    have hc2 : c ∈ joinUnderscore
        ((splitUnderscore (meaning.toList.map normChar)).filter keepWord) := hc
    rcases mem_of_mem_joinUnderscore _ c hc2 with h1 | ⟨w, hw, hcw⟩
    · exact Or.inr h1
    · have hw2 : w ∈ splitUnderscore (meaning.toList.map normChar) :=
        List.mem_of_mem_filter hw
      have hcm : c ∈ meaning.toList.map normChar :=
        mem_of_mem_splitUnderscore _ w hw2 c hcw
      rcases List.mem_map.mp hcm with ⟨c0, _, rfl⟩
      exact normChar_word c0
  · intro hne
    unfold normalize_meaning_to_function_name
    intro hcontra
    have hnil : joinUnderscore
        ((splitUnderscore (meaning.toList.map normChar)).filter keepWord) = [] := by
      have := congrArg String.toList hcontra
      simpa using this
    refine joinUnderscore_ne_nil _ hne ?_ hnil
    intro w hw
    have := List.of_mem_filter hw
    simp only [keepWord, Bool.and_eq_true, decide_eq_true_eq,
      Bool.not_eq_true'] at this
    intro hwnil
    subst hwnil
    simp [List.isEmpty] at this

/-- Witness for C5 at a concrete meaning with a surviving fragment. -/
theorem normalize_meaning_charset_witness :
    (splitUnderscore (("capital city".toList.map normChar))).filter keepWord ≠ [] ∧
    normalize_meaning_to_function_name "capital city" ≠ "" :=
  ⟨by decide, (normalize_meaning_charset_and_examples "capital city").2.1 (by decide)⟩

/-- C2: each generated decode dispatcher first attempts a direct parse of the
raw reply as the target primitive — for every family of synthesized
extractors, i.e. without consulting any meaning-specific extractor — and only
on direct-parse failure falls back to the meaning-keyed arm when the meaning
is in the synthesized set, and to the generic extractor otherwise. For the
boolean dispatcher the direct step is the containment test on the lower-cased
reply, so the well-formed replies `true`/`false` short-circuit. In
particular, for return primitive `i32`, input `"42"` decodes via direct parse
to `42` for every meaning and every extractor family. -/
theorem decode_dispatch_direct_parse_first (E : SynthesizedExtractors)
    (content : String) (meaning : Option String) :
    (∀ v, parseI32 (rustTrim content) = some v →
      parse_semantic_response E content meaning "i32" = .Number (v : ℚ)) ∧
    (∀ m, parseI32 (rustTrim content) = none → meaning = some m →
      m ∈ E.intMeanings →
      parse_semantic_response E content meaning "i32" =
        .Number (E.intExtract m content : ℚ)) ∧
    (∀ m, parseI32 (rustTrim content) = none → meaning = some m →
      m ∉ E.intMeanings →
      parse_semantic_response E content meaning "i32" =
        .Number (extract_generic_number content : ℚ)) ∧
    (∀ v, parseDecimal (rustTrim content) = some v →
      parse_semantic_response E content meaning "f64" = .Number v) ∧
    (rustToLower content = "true" →
      parse_semantic_response E content meaning "bool" = .Boolean true) ∧
    (rustToLower content = "false" →
      parse_semantic_response E content meaning "bool" = .Boolean false) ∧
    parse_semantic_response E "42" meaning "i32" = .Number 42 := by
  refine ⟨?_, ?_, ?_, ?_, ?_, ?_, ?_⟩
  · intro v hv
    simp [parse_semantic_response, parse_integer_semantic, hv]
  · intro m hv hm hmem
    subst hm
    simp [parse_semantic_response, parse_integer_semantic, hv, hmem]
  · intro m hv hm hmem
    subst hm
    simp [parse_semantic_response, parse_integer_semantic, hv, hmem]
  · intro v hv
    simp [parse_semantic_response, parse_float_semantic, hv]
  · intro hlow
    have h1 : strContains "true" "true" = true := by decide
    simp [parse_semantic_response, parse_boolean_semantic, hlow, h1]
  · intro hlow
    have h1 : strContains "false" "true" = false := by decide
    have h2 : strContains "false" "yes" = false := by decide
    have h3 : strContains "false" "false" = true := by decide
    simp [parse_semantic_response, parse_boolean_semantic, hlow, h1, h2, h3]
  · have h42 : parseI32 (rustTrim "42") = some 42 := by decide
    simp [parse_semantic_response, parse_integer_semantic, h42]

/-- Witness for C2: a concrete extractor family that would return 37 for
every meaning is never consulted when the reply parses directly. -/
theorem decode_dispatch_direct_parse_first_witness :
    parse_semantic_response
      ⟨fun _ _ => 37, fun _ _ => 37, fun _ _ => true, fun _ _ => "x",
        ["n"], ["n"], ["n"], ["n"]⟩ "42" (some "n") "i32" = .Number 42 :=
  (decode_dispatch_direct_parse_first
    ⟨fun _ _ => 37, fun _ _ => 37, fun _ _ => true, fun _ _ => "x",
      ["n"], ["n"], ["n"], ["n"]⟩ "42" (some "n")).1 42 (by decide)

/-- C1 (code bug): on the repository's own inheritance-test program, the
`Joke` alias carries the meaning `"a short humorous line"` in both the
semantic table and the alias table, the function `tellJoke` declares return
type `Joke` with no inline meaning, yet
`extract_semantic_meaning_from_function` yields `none`: no inheritance from
the alias entry is performed (there is no alias-to-meaning table at all), so
the generated prompt call passes `None` as the meaning. A function with an
inline meaning annotation does get that meaning. -/
theorem meaning_inheritance_missing :
    collect_semantic_meanings (fun _ => none) jokeProgram
        "a short humorous line" = some ("String", "short_humorous_line") ∧
    foldAliases jokeProgram.children "Joke" = some "String" ∧
    extract_semantic_meaning_from_function tellJokeFn = none ∧
    extract_semantic_meaning_from_function getTemperatureFn =
      some "temperature in Celsius" := by
  refine ⟨by decide, by decide, by decide, by decide⟩

/-- Counterexample to C4 as stated: with `type A = Int; type B = A;`,
resolving `B` yields the alias name `A` — not one of the four primitives —
and resolving the result a second time yields `i32` instead, so resolution
is neither transitive nor idempotent on alias-of-alias declarations. -/
theorem alias_resolution_not_transitive :
    resolve_type_alias (foldAliases [aliasDeclA, aliasDeclB]) "B" = "A" ∧
    ("A" ≠ "i32" ∧ "A" ≠ "f64" ∧ "A" ≠ "bool" ∧ "A" ≠ "String") ∧
    resolve_type_alias (foldAliases [aliasDeclA, aliasDeclB])
        (resolve_type_alias (foldAliases [aliasDeclA, aliasDeclB]) "B") =
      "i32" := by
  refine ⟨by decide, by decide, by decide⟩

/-- C4 (amended): resolution performs exactly one table lookup. For an alias
declared directly over a primitive base-type name, the recorded entry is one
of the four rust primitives and resolution is idempotent (provided no alias
shadows a primitive name); but an alias declared in terms of another alias
resolves to that alias's name, one level only, not transitively to a
primitive. -/
theorem alias_resolution_primitive_idempotent
    (al : AliasMap) (td : AstNode) (tname : String) (c : AstNode)
    (cs : List AstNode) (tn : String)
    (hname : td.get_string "name" = some tname)
    (hch : td.children = c :: cs)
    (htn : extract_type_name c = some tn)
    (hprim : tn ∈ ["Int", "Float", "String", "Bool"])
    (hclean : ∀ p, p ∈ ["i32", "f64", "bool", "String"] → al p = none)
    (hfresh : tname ∉ ["i32", "f64", "bool", "String"]) :
    (∃ text, generate_type_declaration al td =
      .ok (text, mapInsert al tname (map_to_rust_type tn))) ∧
    map_to_rust_type tn ∈ ["i32", "f64", "bool", "String"] ∧
    resolve_type_alias (mapInsert al tname (map_to_rust_type tn)) tname =
      map_to_rust_type tn ∧
    resolve_type_alias (mapInsert al tname (map_to_rust_type tn))
        (resolve_type_alias (mapInsert al tname (map_to_rust_type tn))
          tname) =
      resolve_type_alias (mapInsert al tname (map_to_rust_type tn)) tname :=
  by
  have hbt : determine_base_type c = map_to_rust_type tn := by
    simp [determine_base_type, htn]
  have hmem : map_to_rust_type tn ∈ ["i32", "f64", "bool", "String"] := by
    fin_cases hprim <;> decide
  have hres1 :
      resolve_type_alias (mapInsert al tname (map_to_rust_type tn)) tname =
        map_to_rust_type tn := by
    simp [resolve_type_alias, mapInsert]
  have hne : map_to_rust_type tn ≠ tname := by
    intro hcontra
    exact hfresh (hcontra ▸ hmem)
  have hres2 :
      resolve_type_alias (mapInsert al tname (map_to_rust_type tn))
        (map_to_rust_type tn) = map_to_rust_type tn := by
    simp only [resolve_type_alias, mapInsert, if_neg hne,
      hclean _ hmem]
  refine ⟨?_, hmem, hres1, ?_⟩
  · refine ⟨"// MTP Type " ++ tname ++ "\n" ++
      (if c.node_type = .MeaningType then
        match c.get_string "meaning" with
        | some meaning => "// Semantic meaning: \"" ++ meaning ++ "\"\n"
        | none => ""
      else "") ++
      "pub type " ++ tname ++ " = " ++ map_to_rust_type tn ++ ";\n\n", ?_⟩
    unfold generate_type_declaration
    rw [hname, hch]
    simp [hbt]
  · rw [hres1, hres2]

/-- Witness for C4's amended claim at `type A = Int;`. -/
theorem alias_resolution_primitive_idempotent_witness :
    resolve_type_alias (mapInsert (fun _ => none) "A" "i32") "A" = "i32" ∧
    resolve_type_alias (mapInsert (fun _ => none) "A" "i32")
        (resolve_type_alias (mapInsert (fun _ => none) "A" "i32") "A") =
      resolve_type_alias (mapInsert (fun _ => none) "A" "i32") "A" := by
  have h := alias_resolution_primitive_idempotent
    (fun _ => none) aliasDeclA "A" (astBasicType "Int") [] "Int"
    (by decide) rfl (by decide) (by decide)
    (fun p _ => rfl) (by decide)
  have h34 := h.2.2
  exact ⟨h34.1, h34.2⟩

/-- Counterexample to C6 as stated: with `type T = Int; type T = String;`
the alias-table entry recorded for the earlier declaration IS overwritten by
the later one (`HashMap::insert` semantics), and likewise the semantic-table
entry for a duplicated meaning text records the later declaration's base
type: the last occurrence wins, not the first. -/
theorem first_occurrence_loses :
    foldAliases [dupDecl1, dupDecl2] "T" = some "String" ∧
    (some "String" : Option String) ≠ some "i32" ∧
    collect_semantic_meanings (fun _ => none) dupMeaningProgram
        "shared meaning" = some ("String", "shared_meaning") := by
  refine ⟨by decide, by decide, by decide⟩

/-- C6 (amended): the resolver pass is a single forward fold over the
top-level declarations in source order that processes exactly the
`TypeDecl` nodes; recording an alias is a `HashMap::insert`, so on two
declarations of the same name the LATER occurrence overwrites the earlier
alias-table entry (entries under other names are untouched), as the
`T = Int; T = String` instance shows. -/
theorem type_decl_pass_order_and_overwrite
    (acc : String × AliasMap) (d : AstNode) (rest : List AstNode)
    (al : AliasMap) (td : AstNode) (tname : String) (c : AstNode)
    (cs : List AstNode)
    (hname : td.get_string "name" = some tname)
    (hch : td.children = c :: cs) :
    (d.node_type ≠ .TypeDecl →
      genTypeDeclsFold acc (d :: rest) = genTypeDeclsFold acc rest) ∧
    (∃ text, generate_type_declaration al td =
      .ok (text, mapInsert al tname (determine_base_type c))) ∧
    (mapInsert al tname (determine_base_type c)) tname =
      some (determine_base_type c) ∧
    (∀ k, k ≠ tname →
      (mapInsert al tname (determine_base_type c)) k = al k) ∧
    foldAliases [dupDecl1, dupDecl2] "T" = some "String" := by
  refine ⟨?_, ?_, ?_, ?_, by decide⟩
  · intro hd
    simp [genTypeDeclsFold, hd]
  · refine ⟨"// MTP Type " ++ tname ++ "\n" ++
      (if c.node_type = .MeaningType then
        match c.get_string "meaning" with
        | some meaning => "// Semantic meaning: \"" ++ meaning ++ "\"\n"
        | none => ""
      else "") ++
      "pub type " ++ tname ++ " = " ++ determine_base_type c ++ ";\n\n", ?_⟩
    unfold generate_type_declaration
    rw [hname, hch]
  · simp [mapInsert]
  · intro k hk
    simp [mapInsert, hk]

/-- Witness for C6's amended claim at a concrete declaration pair. -/
theorem type_decl_pass_order_and_overwrite_witness :
    genTypeDeclsFold ("", fun _ => none)
        [.mk .Import [("path", .str "x")] [], dupDecl1] =
      genTypeDeclsFold ("", fun _ => none) [dupDecl1] ∧
    (mapInsert (fun _ => none) "T" (determine_base_type
        (astBasicType "Int"))) "T" = some (determine_base_type
        (astBasicType "Int")) := by
  have h := type_decl_pass_order_and_overwrite
    ("", fun _ => none) (.mk .Import [("path", .str "x")] []) [dupDecl1]
    (fun _ => none) dupDecl1 "T" (astBasicType "Int") []
    (by decide) rfl
  exact ⟨h.1 (by decide), h.2.2.1⟩

/-- C10: a function declaration carrying no return-type annotation (no
`BasicType` or `MeaningType` child) gets the default return type `String`,
and the context the prompt decode path is generated from therefore resolves
to `String` as well (also when no return type was stored at all). -/
theorem return_type_defaults_to_string (func : AstNode)
    (h : ∀ c ∈ func.children,
      c.node_type ≠ .BasicType ∧ c.node_type ≠ .MeaningType) :
    determine_return_type func = "String" ∧
    determine_return_type_from_context
      (some (determine_return_type func)) = "String" ∧
    determine_return_type_from_context none = "String" := by
  have hnone : func.children.findSome?
      (fun child =>
        match child.node_type with
        | .BasicType => (child.get_string "type").map map_to_rust_type
        | .MeaningType =>
          match child.children with
          | base :: _ => (base.get_string "type").map map_to_rust_type
          | [] => none
        | _ => none) = none := by
    rw [List.findSome?_eq_none_iff]
    intro c hc
    rcases h c hc with ⟨h1, h2⟩
    cases hN : c.node_type <;> simp_all
  have hret : determine_return_type func = "String" := by
    unfold determine_return_type
    rw [hnone]
  exact ⟨hret, by rw [hret]; rfl, rfl⟩

/-- Witness for C10 at a concrete annotation-free function. -/
theorem return_type_defaults_to_string_witness :
    determine_return_type noReturnTypeFn = "String" ∧
    determine_return_type_from_context
      (some (determine_return_type noReturnTypeFn)) = "String" :=
  ⟨(return_type_defaults_to_string noReturnTypeFn (by decide)).1,
    (return_type_defaults_to_string noReturnTypeFn (by decide)).2.1⟩

mutual

/-- Statement generation succeeds exactly on `stmtOk` statements. -/
theorem generate_statement_isOk (al : AliasMap) (meaning retTy : Option String)
    (ind : Nat) (s : AstNode) :
    isOkE (generate_statement al meaning retTy ind s) = stmtOk s := by
  rcases s with ⟨t, props, children⟩
  cases t
  case VarDecl =>
    cases h : getStr props "name" <;>
      simp [generate_statement, stmtOk, isOkE, h]
  case PromptBlock =>
    cases h : getStr props "template" <;>
      simp [generate_statement, generate_prompt_block, stmtOk, isOkE,
        AstNode.get_string, AstNode.props, h]
  case Block =>
    have hrec := genStmtList_isOk al meaning retTy (ind + 1) children
    cases hr : genStmtList al meaning retTy (ind + 1) children with
    | error e =>
      rw [hr] at hrec
      simp [isOkE] at hrec
      simp [generate_statement, stmtOk, isOkE, hr, ← hrec]
    | ok body =>
      rw [hr] at hrec
      simp [isOkE] at hrec
      simp [generate_statement, stmtOk, isOkE, hr, ← hrec]
  all_goals simp [generate_statement, stmtOk, isOkE]

/-- Statement-list generation succeeds exactly on `stmtListOk` lists. -/
theorem genStmtList_isOk (al : AliasMap) (meaning retTy : Option String)
    (ind : Nat) (l : List AstNode) :
    isOkE (genStmtList al meaning retTy ind l) = stmtListOk l := by
  cases l with
  | nil => simp [genStmtList, stmtListOk, isOkE]
  | cons s rest =>
    have hs := generate_statement_isOk al meaning retTy ind s
    have hrest := genStmtList_isOk al meaning retTy ind rest
    cases h1 : generate_statement al meaning retTy ind s with
    | error e =>
      rw [h1] at hs
      simp [isOkE] at hs
      simp [genStmtList, stmtListOk, isOkE, h1, ← hs]
    | ok t =>
      rw [h1] at hs
      simp [isOkE] at hs
      cases h2 : genStmtList al meaning retTy ind rest with
      | error e =>
        rw [h2] at hrest
        simp [isOkE] at hrest
        simp [genStmtList, stmtListOk, isOkE, h1, h2, ← hs, ← hrest]
      | ok ts =>
        rw [h2] at hrest
        simp [isOkE] at hrest
        simp [genStmtList, stmtListOk, isOkE, h1, h2, hs, hrest]

end

/-- Function-body generation succeeds exactly on `funcBodyOk` bodies. -/
theorem generate_function_body_isOk (al : AliasMap)
    (meaning retTy : Option String) (ind : Nat) :
    ∀ l : List AstNode,
      isOkE (generate_function_body al meaning retTy ind l) = funcBodyOk l
  | [] => by simp [generate_function_body, funcBodyOk, isOkE]
  | c :: rest => by
    by_cases h : c.node_type = .FunctionBody
    · simp [generate_function_body, funcBodyOk, h, genStmtList_isOk]
    · simp [generate_function_body, funcBodyOk, h,
        generate_function_body_isOk al meaning retTy ind rest]

/-- Function generation succeeds exactly on `funcOk` functions. -/
theorem generate_function_isOk (al : AliasMap) (f : AstNode) :
    isOkE (generate_function al f) = funcOk f := by
  unfold generate_function funcOk
  cases h : f.get_string "name" with
  | none => simp [h, isOkE]
  | some name =>
    have hb := generate_function_body_isOk al
      (extract_semantic_meaning_from_function f)
      (some (determine_return_type f)) 1 f.children
    cases hr : generate_function_body al
        (extract_semantic_meaning_from_function f)
        (some (determine_return_type f)) 1 f.children with
    | error e =>
      rw [hr] at hb
      simp [isOkE] at hb
      simp [h, hr, isOkE, ← hb]
    | ok body =>
      rw [hr] at hb
      simp [isOkE] at hb
      simp [h, hr, isOkE, ← hb]

/-- Method generation succeeds exactly on `funcOk` functions as well. -/
theorem generate_method_isOk (al : AliasMap) (f : AstNode) :
    isOkE (generate_method al f) = funcOk f := by
  unfold generate_method funcOk
  cases h : f.get_string "name" with
  | none => simp [h, isOkE]
  | some name =>
    have hb := generate_function_body_isOk al none none 2 f.children
    cases hr : generate_function_body al none none 2 f.children with
    | error e =>
      rw [hr] at hb
      simp [isOkE] at hb
      simp [h, hr, isOkE, ← hb]
    | ok body =>
      rw [hr] at hb
      simp [isOkE] at hb
      simp [h, hr, isOkE, ← hb]

/-- The method fold succeeds exactly on `methodsOk` member lists. -/
theorem genMethodsFold_isOk (al : AliasMap) :
    ∀ (l : List AstNode) (acc : String),
      isOkE (genMethodsFold al acc l) = methodsOk l
  | [], acc => by simp [genMethodsFold, methodsOk, isOkE]
  | c :: rest, acc => by
    by_cases h : c.node_type = .FunctionDecl
    · have hm := generate_method_isOk al c
      cases hr : generate_method al c with
      | error e =>
        rw [hr] at hm
        simp [isOkE] at hm
        simp [genMethodsFold, methodsOk, h, hr, isOkE, ← hm]
      | ok t =>
        rw [hr] at hm
        simp [isOkE] at hm
        simp [genMethodsFold, methodsOk, h, hr, hm,
          genMethodsFold_isOk al rest (acc ++ t)]
    · simp [genMethodsFold, methodsOk, h, genMethodsFold_isOk al rest acc]

/-- Struct/class generation succeeds exactly on `classOk` classes. -/
theorem generate_struct_declaration_isOk (al : AliasMap) (c : AstNode) :
    isOkE (generate_struct_declaration al c) = classOk c := by
  unfold generate_struct_declaration classOk
  cases h : c.get_string "name" with
  | none => simp [h, isOkE]
  | some name =>
    have hm := genMethodsFold_isOk al c.children ""
    unfold generate_impl_block
    cases hr : genMethodsFold al "" c.children with
    | error e =>
      rw [hr] at hm
      simp [isOkE] at hm
      simp [h, hr, isOkE, ← hm]
    | ok ms =>
      rw [hr] at hm
      simp [isOkE] at hm
      simp [h, hr, isOkE, ← hm]

/-- A type declaration generates successfully exactly when it has a name. -/
theorem generate_type_declaration_isOk (al : AliasMap) (d : AstNode) :
    isOkE (generate_type_declaration al d) = (d.get_string "name").isSome := by
  unfold generate_type_declaration
  cases h : d.get_string "name" with
  | none => simp [h, isOkE]
  | some name =>
    cases hc : d.children with
    | nil => simp [h, hc, isOkE]
    | cons c cs => simp [h, hc, isOkE]

/-- The first pass succeeds exactly on `typeDeclsOk` declaration lists. -/
theorem genTypeDeclsFold_isOk :
    ∀ (l : List AstNode) (acc : String × AliasMap),
      isOkE (genTypeDeclsFold acc l) = typeDeclsOk l
  | [], acc => by simp [genTypeDeclsFold, typeDeclsOk, isOkE]
  | d :: rest, acc => by
    by_cases h : d.node_type = .TypeDecl
    · have ht := generate_type_declaration_isOk acc.2 d
      cases hr : generate_type_declaration acc.2 d with
      | error e =>
        rw [hr] at ht
        simp [isOkE] at ht
        simp [genTypeDeclsFold, typeDeclsOk, h, hr, isOkE, ← ht]
      | ok r =>
        rw [hr] at ht
        simp [isOkE] at ht
        simp [genTypeDeclsFold, typeDeclsOk, h, hr, ← ht,
          genTypeDeclsFold_isOk rest (acc.1 ++ r.1, r.2)]
    · simp [genTypeDeclsFold, typeDeclsOk, h, genTypeDeclsFold_isOk rest acc]

/-- The second pass succeeds exactly on `declsOk` declaration lists. -/
theorem genDeclsFold_isOk (al : AliasMap) :
    ∀ (l : List AstNode) (acc : String),
      isOkE (genDeclsFold al acc l) = declsOk l
  | [], acc => by simp [genDeclsFold, declsOk, isOkE]
  | d :: rest, acc => by
    rcases d with ⟨t, props, children⟩
    cases t
    case FunctionDecl =>
      have hf := generate_function_isOk al (.mk .FunctionDecl props children)
      cases hr : generate_function al (.mk .FunctionDecl props children) with
      | error e =>
        rw [hr] at hf
        simp [isOkE] at hf
        simp [genDeclsFold, declsOk, AstNode.node_type, hr, isOkE, ← hf]
      | ok t2 =>
        rw [hr] at hf
        simp [isOkE] at hf
        simp [genDeclsFold, declsOk, AstNode.node_type, hr, hf,
          genDeclsFold_isOk al rest (acc ++ t2)]
    case ClassDecl =>
      have hf := generate_struct_declaration_isOk al
        (.mk .ClassDecl props children)
      cases hr : generate_struct_declaration al
          (.mk .ClassDecl props children) with
      | error e =>
        rw [hr] at hf
        simp [isOkE] at hf
        simp [genDeclsFold, declsOk, AstNode.node_type, hr, isOkE, ← hf]
      | ok t2 =>
        rw [hr] at hf
        simp [isOkE] at hf
        simp [genDeclsFold, declsOk, AstNode.node_type, hr, hf,
          genDeclsFold_isOk al rest (acc ++ t2)]
    all_goals
      simp [genDeclsFold, declsOk, AstNode.node_type,
        genDeclsFold_isOk al rest acc]

/-- C8: code generation succeeds exactly when every top-level type, function
and class declaration carries its required name attribute, every variable
declaration in a generated body carries its name, and every prompt block
carries its template (`programOk`); in every other case the whole
generation is a propagated `error` carrying no output artifact. In
particular the generator never silently emits output for a program with a
missing required name or template, and a well-formed program never aborts. -/
theorem generation_error_characterization (ast : AstNode) :
    isOkE (generate ast) = programOk ast := by
  unfold generate programOk
  have ht := genTypeDeclsFold_isOk ast.children ("", fun _ => none)
  cases hr : genTypeDeclsFold ("", fun _ => none) ast.children with
  | error e =>
    rw [hr] at ht
    simp [isOkE] at ht
    simp [hr, isOkE, ← ht]
  | ok fst =>
    rw [hr] at ht
    simp [isOkE] at ht
    have hd := genDeclsFold_isOk fst.2 ast.children ""
    cases hr2 : genDeclsFold fst.2 "" ast.children with
    | error e =>
      rw [hr2] at hd
      simp [isOkE] at hd
      simp [hr, hr2, isOkE, ht, ← hd]
    | ok snd =>
      rw [hr2] at hd
      simp [isOkE] at hd
      simp [hr, hr2, isOkE, ht, hd]

/-- Counterexample to C9 as stated: in `"fn\nfn"` the second `fn` token
starts at the beginning of line 2 (true position column 1) but is recorded
at column 2, and in `"a b"` the token `b` starts at true column 3 but is
recorded at column 4 — recorded columns do not equal the 1-based position of
the token's first character, and a token at the start of a line does not
carry column 1. -/
theorem lexer_column_counterexample :
    (tokenize "fn\nfn").map (fun tk => (tk.token_type, tk.line, tk.column)) =
      [(.Fn, 1, 1), (.Fn, 2, 2), (.Eof, 2, 3)] ∧
    (tokenize "a b").map (fun tk => (tk.value, tk.line, tk.column)) =
      [("a", 1, 1), ("b", 1, 4), ("", 1, 5)] ∧
    (2 : Nat) ≠ 1 ∧ (4 : Nat) ≠ 3 := by
  refine ⟨by decide, by decide, by decide, by decide⟩

/-- Step equation of the lexer loop on a space. -/
theorem tokLoop_space (fuel : Nat) (t : List Char) (line col : Nat) :
    tokLoop (fuel + 1) (' ' :: t) line col =
      tokLoop fuel t line (col + 1 + 1) := rfl

/-- Step equation of the lexer loop on a tab. -/
theorem tokLoop_tab (fuel : Nat) (t : List Char) (line col : Nat) :
    tokLoop (fuel + 1) ('\t' :: t) line col =
      tokLoop fuel t line (col + 1 + 1) := rfl

/-- Step equation of the lexer loop on a carriage return. -/
theorem tokLoop_cr (fuel : Nat) (t : List Char) (line col : Nat) :
    tokLoop (fuel + 1) ('\x0d' :: t) line col =
      tokLoop fuel t line (col + 1 + 1) := rfl

/-- Step equation of the lexer loop on a newline: line + 1, column reset to
1, then the uniform per-iteration increment makes it 2. -/
theorem tokLoop_newline (fuel : Nat) (t : List Char) (line col : Nat) :
    tokLoop (fuel + 1) ('\n' :: t) line col =
      tokLoop fuel t (line + 1) (1 + 1) := rfl

/-- C9 (amended): whitespace is skipped without producing a token and a
newline increments the line counter and resets the column counter to 1 —
but the loop adds one more to the column after every processed character,
so each whitespace character advances the column by 2 and the character
after a newline starts at recorded column 2; the continuation characters of
multi-character tokens advance no counter. Hence recorded token columns do
not in general equal 1-based source positions (`"fn\nfn"` records its
second token at column 2). A whitespace-only input yields only the
end-of-input token. -/
theorem lexer_column_behaviour :
    (∀ fuel rest line col, ∀ c, (c = ' ' ∨ c = '\t' ∨ c = '\r') →
      tokLoop (fuel + 1) (c :: rest) line col =
        tokLoop fuel rest line (col + 1 + 1)) ∧
    (∀ fuel rest line col,
      tokLoop (fuel + 1) ('\n' :: rest) line col =
        tokLoop fuel rest (line + 1) (1 + 1)) ∧
    (∀ s : String, (∀ c ∈ s.toList,
        c = ' ' ∨ c = '\t' ∨ c = '\r' ∨ c = '\n') →
      (tokenize s).map Token.token_type = [.Eof]) ∧
    (tokenize "fn\nfn").map (fun tk => (tk.token_type, tk.line, tk.column)) =
      [(.Fn, 1, 1), (.Fn, 2, 2), (.Eof, 2, 3)] := by
  have key : ∀ (cs : List Char) (fuel line col : Nat),
      (∀ c ∈ cs, c = ' ' ∨ c = '\t' ∨ c = '\r' ∨ c = '\n') →
      (tokLoop fuel cs line col).map Token.token_type = [.Eof] ∨
        tokLoop fuel cs line col = [] := by
    intro cs
    induction cs with
    | nil =>
      intro fuel line col _
      cases fuel with
      | zero => exact Or.inl rfl
      | succ n => exact Or.inl rfl
    | cons c t ih =>
      intro fuel line col hws
      have hrest : ∀ x ∈ t, x = ' ' ∨ x = '\t' ∨ x = '\r' ∨ x = '\n' :=
        fun x hx => hws x (List.mem_cons_of_mem _ hx)
      cases fuel with
      | zero =>
        rcases hws c (List.mem_cons_self _ _) with h | h | h | h <;>
          subst h <;> exact Or.inr rfl
      | succ fuel =>
        rcases hws c (List.mem_cons_self _ _) with h | h | h | h <;> subst h
        · rw [tokLoop_space]; exact ih fuel line (col + 1 + 1) hrest
        · rw [tokLoop_tab]; exact ih fuel line (col + 1 + 1) hrest
        · rw [tokLoop_cr]; exact ih fuel line (col + 1 + 1) hrest
        · rw [tokLoop_newline]; exact ih fuel (line + 1) (1 + 1) hrest
  refine ⟨?_, ?_, ?_, by decide⟩
  · intro fuel rest line col c hc
    rcases hc with h | h | h <;> subst h
    · exact tokLoop_space fuel rest line col
    · exact tokLoop_tab fuel rest line col
    · exact tokLoop_cr fuel rest line col
  · intro fuel rest line col
    exact tokLoop_newline fuel rest line col
  · intro s hs
    have h2 := key s.toList s.toList.length 1 1 hs
    rcases h2 with h2 | h2
    · exact h2
    · exfalso
      have hlen : ∀ (cs : List Char) (line col : Nat),
          (∀ c ∈ cs, c = ' ' ∨ c = '\t' ∨ c = '\r' ∨ c = '\n') →
          tokLoop cs.length cs line col ≠ [] := by
        intro cs
        induction cs with
        | nil => intro line col _; exact fun hcontra => by cases hcontra
        | cons c t ih =>
          intro line col hws
          have hrest : ∀ x ∈ t, x = ' ' ∨ x = '\t' ∨ x = '\r' ∨ x = '\n' :=
            fun x hx => hws x (List.mem_cons_of_mem _ hx)
          have hstep : (c :: t).length = t.length + 1 := rfl
          rw [hstep]
          rcases hws c (List.mem_cons_self _ _) with h | h | h | h <;> subst h
          · rw [tokLoop_space]; exact ih line (col + 1 + 1) hrest
          · rw [tokLoop_tab]; exact ih line (col + 1 + 1) hrest
          · rw [tokLoop_cr]; exact ih line (col + 1 + 1) hrest
          · rw [tokLoop_newline]; exact ih (line + 1) (1 + 1) hrest
      exact hlen s.toList 1 1 hs h2

/-- Witness for C9's amended claim at concrete whitespace inputs. -/
theorem lexer_column_behaviour_witness :
    tokLoop 3 [' ', 'a'] 1 1 = tokLoop 2 ['a'] 1 3 ∧
    tokLoop 3 ['\n', 'a'] 1 5 = tokLoop 2 ['a'] 2 2 ∧
    (tokenize " \n ").map Token.token_type = [.Eof] := by
  refine ⟨?_, ?_, ?_⟩
  · exact lexer_column_behaviour.1 2 ['a'] 1 1 ' ' (Or.inl rfl)
  · exact lexer_column_behaviour.2.1 2 ['a'] 1 5
  · exact lexer_column_behaviour.2.2.1 " \n " (by decide)

/-- A cursor move keeps the token vector. -/
theorem advanceState_tokens (st : PState) :
    st.advanceState.tokens = st.tokens := by
  unfold PState.advanceState
  split <;> rfl

/-- The resynchronization loop stops at end of input, after a consumed
semicolon, or in front of a declaration/statement keyword, whenever the
fuel covers the remaining tokens. -/
theorem syncLoop_post : ∀ (fuel : Nat) (st : PState),
    st.tokens.length ≤ st.current + fuel →
    (syncLoop fuel st).is_at_end = true ∨
    (syncLoop fuel st).previous.token_type = .Semicolon ∨
    ((syncLoop fuel st).peek.token_type = .Class ∨
      (syncLoop fuel st).peek.token_type = .Fn ∨
      (syncLoop fuel st).peek.token_type = .Let ∨
      (syncLoop fuel st).peek.token_type = .Return)
  | 0, st, hlen => by
    left
    have hlen2 : st.tokens.length ≤ st.current := by omega
    simp only [syncLoop, PState.is_at_end, PState.peek]
    rw [List.getD_eq_default _ _ hlen2]
    rfl
  | fuel + 1, st, hlen => by
    by_cases h1 : st.is_at_end = true
    · left
      simp [syncLoop, h1]
    · by_cases h2 : st.previous.token_type = .Semicolon
      · right; left
        simp [syncLoop, h1, h2]
      · by_cases h3 : st.peek.token_type = .Class ∨
            st.peek.token_type = .Fn ∨ st.peek.token_type = .Let ∨
            st.peek.token_type = .Return
        · right; right
          simp only [syncLoop, h1, h2, h3]
          simp [h1, h2, h3]
        · have hstep : syncLoop (fuel + 1) st = syncLoop fuel st.advanceState := by
            simp [syncLoop, h1, h2, h3]
          have hcur : st.advanceState.current = st.current + 1 := by
            simp [PState.advanceState, h1]
          have hrec := syncLoop_post fuel st.advanceState
            (by rw [advanceState_tokens, hcur]; omega)
          rw [hstep]
          exact hrec

/-- The resynchronization loop never moves the cursor backwards. -/
theorem syncLoop_mono : ∀ (fuel : Nat) (st : PState),
    st.current ≤ (syncLoop fuel st).current
  | 0, _ => le_refl _
  | fuel + 1, st => by
    by_cases h1 : st.is_at_end = true
    · simp [syncLoop, h1]
    · by_cases h2 : st.previous.token_type = .Semicolon
      · simp [syncLoop, h1, h2]
      · by_cases h3 : st.peek.token_type = .Class ∨
            st.peek.token_type = .Fn ∨ st.peek.token_type = .Let ∨
            st.peek.token_type = .Return
        · simp [syncLoop, h1, h2, h3]
        · have hstep : syncLoop (fuel + 1) st = syncLoop fuel st.advanceState := by
            simp [syncLoop, h1, h2, h3]
          have hrec := syncLoop_mono fuel st.advanceState
          have hcur : st.advanceState.current = st.current + 1 := by
            simp [PState.advanceState, h1]
          rw [hstep]
          omega

/-- C7: after a parse failure, `synchronize` leaves the parser either at
end of input, or just after a consumed semicolon token, or in front of one
of the `class`/`fn`/`let`/`return` keywords, and it always advances past at
least one token when not already at the end. On the concrete source file
with the malformed statement `let = 5;` inside an otherwise valid function
body, parsing succeeds and yields a program whose first function `good`
keeps its return type and its valid `return x;` statement (the bad
statement is absent) and whose subsequent declaration `later` is parsed
completely. -/
theorem parser_resynchronization :
    (∀ st : PState,
      (synchronize st).is_at_end = true ∨
      (synchronize st).previous.token_type = .Semicolon ∨
      ((synchronize st).peek.token_type = .Class ∨
        (synchronize st).peek.token_type = .Fn ∨
        (synchronize st).peek.token_type = .Let ∨
        (synchronize st).peek.token_type = .Return)) ∧
    (∀ st : PState, st.is_at_end = false →
      st.current + 1 ≤ (synchronize st).current) ∧
    isOkE (parse_string recoverySource) = true ∧
    (parseOrEmpty recoverySource).children.map
        (fun c => (c.node_type, c.get_string "name")) =
      [(.FunctionDecl, some "good"), (.FunctionDecl, some "later")] ∧
    ((parseOrEmpty recoverySource).children.getD 0
        (AstNode.new .Program)).children.map AstNode.node_type =
      [.BasicType, .FunctionBody] ∧
    (((parseOrEmpty recoverySource).children.getD 0
        (AstNode.new .Program)).children.getD 1
        (AstNode.new .Program)).children.map AstNode.node_type =
      [.ReturnStmt] ∧
    (((parseOrEmpty recoverySource).children.getD 1
        (AstNode.new .Program)).children.getD 1
        (AstNode.new .Program)).children.map AstNode.node_type =
      [.ReturnStmt] := by
  refine ⟨?_, ?_, by decide, by decide, by decide, by decide, by decide⟩
  · intro st
    unfold synchronize
    exact syncLoop_post st.tokens.length st.advanceState
      (by rw [advanceState_tokens]; omega)
  · intro st hend
    unfold synchronize
    have hcur : st.advanceState.current = st.current + 1 := by
      simp [PState.advanceState, hend]
    have := syncLoop_mono st.tokens.length st.advanceState
    omega

/-- Witness for C7's resynchronization postcondition at a concrete state:
inside `let = 5; return x;` with the cursor on `=`, synchronization reaches
one of the stop conditions and strictly advances the cursor. -/
theorem parser_resynchronization_witness :
    resyncState.is_at_end = false ∧
    ((synchronize resyncState).is_at_end = true ∨
      (synchronize resyncState).previous.token_type = .Semicolon ∨
      ((synchronize resyncState).peek.token_type = .Class ∨
        (synchronize resyncState).peek.token_type = .Fn ∨
        (synchronize resyncState).peek.token_type = .Let ∨
        (synchronize resyncState).peek.token_type = .Return)) ∧
    2 ≤ (synchronize resyncState).current :=
  ⟨by decide,
    parser_resynchronization.1 resyncState,
    parser_resynchronization.2.1 resyncState (by decide)⟩

end Vibe
